import Mathlib

/-!
Verification of the public-civic-info-system core against its specification.

This file gives a shallow embedding, in Lean 4, of the parts of the source
relevant to the checked claims:

* `src/indexing_pipeline/ELT/parse_chunk_store/_html.py` — canonicalization,
  sentence splitting, token windowing, semantic-region labeling, chunk
  assembly, JSONL serialization and the idempotent materializer.
* `src/indexing_pipeline/ELT/parse_chunk_store/pdf.py` — the PDF windower,
  PDF semantic-region labeling and per-page chunk assembly.
* `src/inference_pipeline/core/generator.py` — prompt construction and the
  strict output validator.
* `src/inference_pipeline/core/retriever.py` — dedupe, trust-weighted
  re-ranking and passage formatting.
* `src/inference_pipeline/core/query.py` — request-shape validation, policy
  gates and the orchestrator's resolution dispatch.

Machine integers are modelled as `Nat`/`Int`, floats as `ℚ` (the source only
adds, divides and compares these quantities), fallible steps as
`Option`/`Except`, and external I/O (object store, vector store, model
endpoints) as explicit outcome parameters.  Unicode NFKC normalization is an
opaque parameter `nfkc : String → String` (the source calls
`unicodedata.normalize("NFKC", ·)`); concrete witnesses instantiate it with
`id`.  Where the source hashes a normalized string with sha256 merely to get
a fixed-size dedupe key, the model uses the normalized string itself as the
key (hash collisions are outside the model); where a sha256 digest is
compared for idempotency the hash is an explicit function parameter
`sha : String → String`.
-/

namespace Civic

/-! ## Python string primitives

`pyIsSpace` is the ASCII fragment of Python's `str` whitespace class (the
characters `str.split`, `str.strip` and `\s` treat as whitespace). -/

def pyIsSpace (c : Char) : Bool :=
  c = ' ' || c = '\t' || c = '\n' || c = '\r' || c = Char.ofNat 11 || c = Char.ofNat 12

/-- Python `str.strip()`: drop leading and trailing whitespace. -/
def pyStrip (s : String) : String :=
  String.mk (((s.toList.dropWhile pyIsSpace).reverse.dropWhile pyIsSpace).reverse)

/-- Python `str.lower()` (per-character; the source only lowercases ASCII
dedupe keys, trust levels and disallowed-substring scans). -/
def pyLower (s : String) : String := String.mk (s.toList.map Char.toLower)

/-- Python `str.split()` with no argument: split on whitespace runs,
discarding empty pieces. -/
def pySplitAux : List Char → List Char → List String
  | acc, [] => if acc.isEmpty then [] else [String.mk acc.reverse]
  | acc, c :: cs =>
    if pyIsSpace c then
      if acc.isEmpty then pySplitAux [] cs
      else String.mk acc.reverse :: pySplitAux [] cs
    else pySplitAux (c :: acc) cs

def pySplit (s : String) : List String := pySplitAux [] s.toList

/-- Python `str.splitlines()` restricted to the line breaks the core ever
feeds it: `\n`, `\r`, `\r\n`. -/
def pySplitlinesAux : List Char → List Char → List String
  | acc, [] => if acc.isEmpty then [] else [String.mk acc.reverse]
  | acc, '\r' :: '\n' :: cs => String.mk acc.reverse :: pySplitlinesAux [] cs
  | acc, '\n' :: cs => String.mk acc.reverse :: pySplitlinesAux [] cs
  | acc, '\r' :: cs => String.mk acc.reverse :: pySplitlinesAux [] cs
  | acc, c :: cs => pySplitlinesAux (c :: acc) cs

def pySplitlines (s : String) : List String := pySplitlinesAux [] s.toList

/-- Python's substring operator `pat in s` on character lists. -/
def containsSubB (pat : List Char) : List Char → Bool
  | [] => pat.isPrefixOf []
  | c :: cs => pat.isPrefixOf (c :: cs) || containsSubB pat (cs)

/-- `pat in s` on strings. -/
def strContainsSub (s pat : String) : Bool := containsSubB pat.toList s.toList

/-- First truthy value of a chain `a or b or ...` of optional strings
(Python treats `None` and `""` as falsy). -/
def pyOrStr : List (Option String) → Option String
  | [] => none
  | a :: rest =>
    match a with
    | some s => if s = "" then pyOrStr rest else some s
    | none => pyOrStr rest

/-! ## Chunker: canonicalization, sentence splitting, tokenization
(`_html.py` and `pdf.py`) -/

/-- `re.sub(r"\s+", " ", s).strip()` — collapse whitespace runs to single
spaces and strip the ends. -/
def collapseWs (s : String) : String := String.intercalate " " (pySplit s)

/-- `_html.py canonicalize_text`: NFKC-normalize, normalize line endings,
collapse whitespace.  The `\r\n → \n` step of the source is subsumed by the
`\s+` collapse. -/
def canonicalize_text (nfkc : String → String) (s : String) : String :=
  collapseWs (nfkc s)

/-- A tokenizer pair, standing for the source's `encode_tokens` /
`decode_tokens` (tiktoken when importable, whitespace split otherwise). -/
structure TokenCodec (τ : Type) where
  encode : String → List τ
  decode : List τ → String

/-- The source's fallback tokenizer: `text.split()` / `" ".join(tokens)`. -/
def wsCodec : TokenCodec String :=
  { encode := pySplit, decode := fun ts => String.intercalate " " ts }

/-- Characters of the sentence-splitting class `[\.\?\!\n]` of
`_sentence_re`. -/
def sentenceEnder (c : Char) : Bool :=
  c = '.' || c = '?' || c = '!' || c = '\n'

/-- The pieces produced by `_sentence_re = (.+?[\.\?\!\n]+)|(.+?$)` under
`finditer`: each piece is the shortest nonempty run extended through the
following maximal run of sentence enders; a trailing piece without an ender
is kept whole. -/
def sentPiecesAux (acc : List Char) : List Char → List (List Char)
  | [] => if acc.isEmpty then [] else [acc.reverse]
  | c :: cs =>
    if sentenceEnder c then
      match cs with
      | [] => [(c :: acc).reverse]
      | c' :: _ =>
        if sentenceEnder c' then sentPiecesAux (c :: acc) cs
        else (c :: acc).reverse :: sentPiecesAux [] cs
    else sentPiecesAux (c :: acc) cs

/-- `sentence_spans`: the stripped, nonempty sentence pieces of a text.  The
character offsets the source also records (`start_char`/`end_char`) are dead
downstream and are not modelled. -/
def sentence_spans (text : String) : List String :=
  ((sentPiecesAux [] text.toList).map (fun cs => pyStrip (String.mk cs))).filter
    (fun s => s ≠ "")

/-- One entry of the windower's mutable `sent_items` list. -/
structure SentItem (τ : Type) where
  text : String
  tokens : List τ
  token_len : Nat
  token_start_idx : Option Nat
  token_end_idx : Option Nat

/-- Assign cumulative token positions (`token_start_idx`/`token_end_idx`)
to the sentence items, mirroring the `token_cursor` loop. -/
def assignTokenIdx {τ : Type} : Nat → List (SentItem τ) → List (SentItem τ)
  | _, [] => []
  | cursor, s :: rest =>
    { s with token_start_idx := some cursor,
             token_end_idx := some (cursor + s.token_len) } ::
      assignTokenIdx (cursor + s.token_len) rest

/-- Build the initial `sent_items` of `split_into_windows` from a text. -/
def mkSentItems {τ : Type} (codec : TokenCodec τ) (text : String) :
    List (SentItem τ) :=
  assignTokenIdx 0 ((sentence_spans text).map (fun s =>
    let toks := codec.encode s
    { text := s, tokens := toks, token_len := toks.length,
      token_start_idx := none, token_end_idx := none }))

/-- One emitted window (`chunk_meta` dict of the windower). -/
structure Window where
  window_index : Nat
  text : String
  token_count : Nat
  token_start : Nat
  token_end : Nat
  start_sentence_idx : Nat
  end_sentence_idx : Nat
deriving DecidableEq, Repr

/-- The greedy packing inner `while` loop: consume sentences from index `i`
while they fit in the remaining token budget.  Returns the collected
sentence texts (reversed), the accumulated token count, the running
`chunk_token_end` and the final cursor.

The loop advances `i` by one each iteration and stops at `sents.size`, so
any fuel ≥ `sents.size - i` makes the recursion identical to the source's
`while`; callers pass `sents.size`.  (Structural fuel recursion keeps every
definition kernel-computable.) -/
def packLoop {τ : Type} (fuel : Nat) (maxTokens chunkTokenStart : Nat)
    (sents : Array (SentItem τ)) (i cur tokEnd : Nat)
    (texts : List String) : List String × Nat × Nat × Nat :=
  match fuel with
  | 0 => (texts, cur, tokEnd, i)
  | fuel + 1 =>
    if h : i < sents.size then
      let sent := sents[i]
      if cur + sent.token_len > maxTokens then (texts, cur, tokEnd, i)
      else
        let cur' := cur + sent.token_len
        packLoop fuel maxTokens chunkTokenStart sents (i + 1) cur'
          (sent.token_end_idx.getD (chunkTokenStart + cur'))
          (sent.text :: texts)
    else (texts, cur, tokEnd, i)

theorem packLoop_i_ge {τ : Type} (fuel : Nat) (maxTokens chunkTokenStart : Nat)
    (sents : Array (SentItem τ)) (i cur tokEnd : Nat) (texts : List String) :
    i ≤ (packLoop fuel maxTokens chunkTokenStart sents i cur tokEnd
      texts).2.2.2 := by
  induction fuel generalizing i cur tokEnd texts with
  | zero => exact le_refl i
  | succ fuel ih =>
    rw [packLoop]
    split
    · dsimp only
      split
      · exact le_refl i
      · exact le_trans (Nat.le_succ i) (ih _ _ _ _)
    · exact le_refl i

/-- Result of one iteration of the windower's outer `while` loop: the
emitted `chunk_meta`, the (possibly mutated) `sent_items` array, and the
advanced sentence cursor `new_i = max(start_i+1, end_sentence_idx -
overlap_sentences)`. -/
structure StepResult (τ : Type) where
  window : Window
  sents : Array (SentItem τ)
  newI : Nat

/-- One iteration of the `_html.py split_into_windows` outer loop, from the
greedy pack through the oversized-sentence truncation branch.  When a single
sentence exceeds `max_tokens` the source truncates it, writes the remainder
back into `sent_items[i]` (clearing its token positions) and leaves `i`
unchanged. -/
def windowStepHtml {τ : Type} (codec : TokenCodec τ) (maxTokens : Nat)
    (sents : Array (SentItem τ)) (i : Nat) (h : i < sents.size)
    (widx overlap : Nat) : StepResult τ :=
  let chunkTokenStart := (sents[i].token_start_idx).getD 0
  let p := packLoop sents.size maxTokens chunkTokenStart sents i 0
    chunkTokenStart []
  let textsRev := p.1
  let cur0 := p.2.1
  let tokEnd0 := p.2.2.1
  let i0 := p.2.2.2
  if textsRev.isEmpty then
    if h0 : i0 < sents.size then
      let sent := sents[i0]
      let truncated := sent.tokens.take maxTokens
      let remaining := sent.tokens.drop maxTokens
      let cur := truncated.length
      let w : Window :=
        { window_index := widx, text := codec.decode truncated,
          token_count := cur, token_start := chunkTokenStart,
          token_end := chunkTokenStart + cur, start_sentence_idx := i,
          end_sentence_idx := if remaining.isEmpty then i0 + 1 else i0 }
      let sent' : SentItem τ :=
        { sent with
          tokens := remaining, token_len := remaining.length,
          token_start_idx := none, token_end_idx := none }
      let sents' :=
        if remaining.isEmpty then sents else sents.set ⟨i0, h0⟩ sent'
      { window := w, sents := sents',
        newI := max (i + 1) (w.end_sentence_idx - overlap) }
    else
      -- dead branch: an empty pack leaves the cursor at `i < sents.size`
      let w : Window :=
        { window_index := widx, text := "", token_count := 0,
          token_start := chunkTokenStart, token_end := chunkTokenStart,
          start_sentence_idx := i, end_sentence_idx := i0 }
      { window := w, sents := sents, newI := max (i + 1) (i0 - overlap) }
  else
    let w : Window :=
      { window_index := widx,
        text := pyStrip (String.intercalate " " textsRev.reverse),
        token_count := cur0, token_start := chunkTokenStart,
        token_end := tokEnd0, start_sentence_idx := i, end_sentence_idx := i0 }
    { window := w, sents := sents, newI := max (i + 1) (i0 - overlap) }

theorem windowStepHtml_size {τ : Type} (codec : TokenCodec τ) (maxTokens : Nat)
    (sents : Array (SentItem τ)) (i : Nat) (h : i < sents.size)
    (widx overlap : Nat) :
    (windowStepHtml codec maxTokens sents i h widx overlap).sents.size =
      sents.size := by
  simp only [windowStepHtml]
  split
  · split
    · split <;> simp [Array.size_set]
    · rfl
  · rfl

theorem windowStepHtml_newI {τ : Type} (codec : TokenCodec τ) (maxTokens : Nat)
    (sents : Array (SentItem τ)) (i : Nat) (h : i < sents.size)
    (widx overlap : Nat) :
    i < (windowStepHtml codec maxTokens sents i h widx overlap).newI := by
  simp only [windowStepHtml]
  split
  · split
    · exact lt_of_lt_of_le (Nat.lt_succ_self i) (le_max_left _ _)
    · exact lt_of_lt_of_le (Nat.lt_succ_self i) (le_max_left _ _)
  · exact lt_of_lt_of_le (Nat.lt_succ_self i) (le_max_left _ _)

/-- `if windows and chunk_meta["token_count"] < min_tokens:` — merge an
undersized window into the previous one, else append.  Windows are held in
reverse emission order (head = most recent). -/
def appendOrMerge (minTokens : Nat) (wsRev : List Window) (cm : Window) :
    List Window :=
  match wsRev with
  | prev :: rest =>
    if cm.token_count < minTokens then
      { prev with
        text := prev.text ++ " " ++ cm.text,
        token_count := prev.token_count + cm.token_count,
        token_end := cm.token_end,
        end_sentence_idx := cm.end_sentence_idx } :: rest
    else cm :: prev :: rest
  | [] => [cm]

/-- The outer `while i < len(sent_items)` loop of `_html.py
split_into_windows`.  The cursor strictly increases each iteration
(`windowStepHtml_newI`) and the array size is fixed
(`windowStepHtml_size`), so fuel ≥ `sents.size - i` reproduces the `while`
exactly; callers pass `sents.size`. -/
def windowLoopHtml {τ : Type} (fuel : Nat) (codec : TokenCodec τ)
    (maxTokens minTokens overlap : Nat) (sents : Array (SentItem τ))
    (i widx : Nat) (wsRev : List Window) : List Window :=
  match fuel with
  | 0 => wsRev.reverse
  | fuel + 1 =>
    if h : i < sents.size then
      let st := windowStepHtml codec maxTokens sents i h widx overlap
      windowLoopHtml fuel codec maxTokens minTokens overlap st.sents st.newI
        (widx + 1) (appendOrMerge minTokens wsRev st.window)
    else wsRev.reverse

/-- `_html.py split_into_windows`.  Yields a single empty window for empty
canonical text and a single whole-text window when sentence splitting finds
nothing (both early `yield`s of the source; their dicts carry no sentence
indices, read downstream as 0). -/
def split_into_windows {τ : Type} (nfkc : String → String)
    (codec : TokenCodec τ) (maxTokens minTokens overlap : Nat)
    (text0 : String) : List Window :=
  let text := canonicalize_text nfkc text0
  if text = "" then
    [{ window_index := 0, text := "", token_count := 0, token_start := 0,
       token_end := 0, start_sentence_idx := 0, end_sentence_idx := 0 }]
  else
    let items := mkSentItems codec text
    if items.isEmpty then
      let toks := codec.encode text
      [{ window_index := 0, text := text, token_count := toks.length,
         token_start := 0, token_end := toks.length, start_sentence_idx := 0,
         end_sentence_idx := 0 }]
    else
      let arr := items.toArray
      windowLoopHtml arr.size codec maxTokens minTokens overlap arr 0 0 []

/-! ## PDF windower (`pdf.py`)

`pdf.py split_into_windows` differs from the HTML one in three places: its
sentence regex `(.+?[\.\?\!]["\']?\s+)|(.+?$)` requires trailing whitespace
after the ender (with an optional closing quote), its cleaning step is a
plain whitespace collapse (no NFKC), and its truncation branch strips the
decoded prefix and keeps the mutated sentence's token positions. -/

def pdfQuote (c : Char) : Bool := c = '"' || c = Char.ofNat 39

/-- The optional closing-quote step `["\']?` after an ender: consume one
quote character when present. -/
def pdfQuoteSplit (cs : List Char) : List Char × List Char :=
  match cs with
  | q0 :: rest => if pdfQuote q0 then ([q0], rest) else ([], q0 :: rest)
  | [] => ([], [])

theorem pdfQuoteSplit_len (cs : List Char) :
    (pdfQuoteSplit cs).2.length ≤ cs.length := by
  match cs with
  | [] => simp [pdfQuoteSplit]
  | q0 :: rest => simp only [pdfQuoteSplit]; split <;> simp

/-- Pieces of `_sentence_split_re = (.+?[\.\?\!]["\']?\s+)|(.+?$)` under
`finditer`: shortest run through an ender, an optional quote and a maximal
nonempty whitespace run; trailing remainder kept whole.  Every recursive
call shrinks the remaining character list, so any fuel ≥ its length
reproduces the scan exactly; the caller passes the full length. -/
def pdfSentPiecesAux (fuel : Nat) (acc : List Char) (l : List Char) :
    List (List Char) :=
  match fuel, l with
  | _, [] => if acc.isEmpty then [] else [acc.reverse]
  | 0, _ => [acc.reverse]
  | fuel + 1, c :: cs =>
    if c = '.' || c = '?' || c = '!' then
      let q := pdfQuoteSplit cs
      let ws := q.2.takeWhile pyIsSpace
      if ws.isEmpty then pdfSentPiecesAux fuel (c :: acc) cs
      else ((c :: acc).reverse ++ q.1 ++ ws) ::
        pdfSentPiecesAux fuel [] (q.2.drop ws.length)
    else pdfSentPiecesAux fuel (c :: acc) cs

def pdf_sentence_spans (text : String) : List String :=
  ((pdfSentPiecesAux text.toList.length [] text.toList).map
    (fun cs => pyStrip (String.mk cs))).filter (fun s => s ≠ "")

def mkSentItemsPdf {τ : Type} (codec : TokenCodec τ) (text : String) :
    List (SentItem τ) :=
  assignTokenIdx 0 ((pdf_sentence_spans text).map (fun s =>
    let toks := codec.encode s
    { text := s, tokens := toks, token_len := toks.length,
      token_start_idx := none, token_end_idx := none }))

/-- One iteration of the `pdf.py split_into_windows` outer loop.  The
greedy pack (`packLoop`) is line-for-line the same as the HTML one. -/
def windowStepPdf {τ : Type} (codec : TokenCodec τ) (maxTokens : Nat)
    (sents : Array (SentItem τ)) (i : Nat) (h : i < sents.size)
    (widx overlap : Nat) : StepResult τ :=
  let chunkTokenStart := (sents[i].token_start_idx).getD 0
  let p := packLoop sents.size maxTokens chunkTokenStart sents i 0
    chunkTokenStart []
  let textsRev := p.1
  let cur0 := p.2.1
  let tokEnd0 := p.2.2.1
  let i0 := p.2.2.2
  if textsRev.isEmpty then
    if h0 : i0 < sents.size then
      let sent := sents[i0]
      let truncated := sent.tokens.take maxTokens
      let remaining := sent.tokens.drop maxTokens
      let cur := truncated.length
      let w : Window :=
        { window_index := widx, text := pyStrip (codec.decode truncated),
          token_count := cur, token_start := chunkTokenStart,
          token_end := chunkTokenStart + cur, start_sentence_idx := i,
          end_sentence_idx := if remaining.isEmpty then i0 + 1 else i0 }
      let sent' : SentItem τ :=
        { sent with tokens := remaining, token_len := remaining.length }
      let sents' :=
        if remaining.isEmpty then sents else sents.set ⟨i0, h0⟩ sent'
      { window := w, sents := sents',
        newI := max (i + 1) (w.end_sentence_idx - overlap) }
    else
      -- dead branch: an empty pack leaves the cursor at `i < sents.size`
      let w : Window :=
        { window_index := widx, text := "", token_count := 0,
          token_start := chunkTokenStart, token_end := chunkTokenStart,
          start_sentence_idx := i, end_sentence_idx := i0 }
      { window := w, sents := sents, newI := max (i + 1) (i0 - overlap) }
  else
    let w : Window :=
      { window_index := widx,
        text := pyStrip (String.intercalate " " textsRev.reverse),
        token_count := cur0, token_start := chunkTokenStart,
        token_end := tokEnd0, start_sentence_idx := i, end_sentence_idx := i0 }
    { window := w, sents := sents, newI := max (i + 1) (i0 - overlap) }

theorem windowStepPdf_size {τ : Type} (codec : TokenCodec τ) (maxTokens : Nat)
    (sents : Array (SentItem τ)) (i : Nat) (h : i < sents.size)
    (widx overlap : Nat) :
    (windowStepPdf codec maxTokens sents i h widx overlap).sents.size =
      sents.size := by
  simp only [windowStepPdf]
  split
  · split
    · split <;> simp [Array.size_set]
    · rfl
  · rfl

theorem windowStepPdf_newI {τ : Type} (codec : TokenCodec τ) (maxTokens : Nat)
    (sents : Array (SentItem τ)) (i : Nat) (h : i < sents.size)
    (widx overlap : Nat) :
    i < (windowStepPdf codec maxTokens sents i h widx overlap).newI := by
  simp only [windowStepPdf]
  split
  · split
    · exact lt_of_lt_of_le (Nat.lt_succ_self i) (le_max_left _ _)
    · exact lt_of_lt_of_le (Nat.lt_succ_self i) (le_max_left _ _)
  · exact lt_of_lt_of_le (Nat.lt_succ_self i) (le_max_left _ _)

def windowLoopPdf {τ : Type} (fuel : Nat) (codec : TokenCodec τ)
    (maxTokens minTokens overlap : Nat) (sents : Array (SentItem τ))
    (i widx : Nat) (wsRev : List Window) : List Window :=
  match fuel with
  | 0 => wsRev.reverse
  | fuel + 1 =>
    if h : i < sents.size then
      let st := windowStepPdf codec maxTokens sents i h widx overlap
      windowLoopPdf fuel codec maxTokens minTokens overlap st.sents st.newI
        (widx + 1) (appendOrMerge minTokens wsRev st.window)
    else wsRev.reverse

/-- `pdf.py split_into_windows`. -/
def split_into_windows_pdf {τ : Type} (codec : TokenCodec τ)
    (maxTokens minTokens overlap : Nat) (text0 : String) : List Window :=
  let text := collapseWs text0
  if text = "" then
    [{ window_index := 0, text := "", token_count := 0, token_start := 0,
       token_end := 0, start_sentence_idx := 0, end_sentence_idx := 0 }]
  else
    let items := mkSentItemsPdf codec text
    if items.isEmpty then
      let toks := codec.encode text
      [{ window_index := 0, text := text, token_count := toks.length,
         token_start := 0, token_end := toks.length, start_sentence_idx := 0,
         end_sentence_idx := 0 }]
    else
      let arr := items.toArray
      windowLoopPdf arr.size codec maxTokens minTokens overlap arr 0 0 []

/-! ## Image frame chunk numbering (`images.py`)

`images.py split_into_windows` is the `pdf.py` windower verbatim — same
sentence regex, same whitespace collapse, same truncate/merge branches and
cursor update — so `split_into_windows_pdf` embeds it.  The frames loop of
`images.py` numbers each frame's chunks independently of every other
frame: a frame whose OCR produced no text emits one provenance chunk with
`chunk_index = 1`, and otherwise every window `w` becomes a chunk with
`chunk_index = w.window_index + 1`.  OCR output is external, so it enters
as the `ocrText` parameter; this definition projects the `chunk_index`
field of the frame's emitted chunks. -/
def image_frame_chunk_indexes {τ : Type} (codec : TokenCodec τ)
    (maxTokens minTokens overlap : Nat) (ocrText : String) : List Nat :=
  if ocrText = "" then [1]
  else
    (split_into_windows_pdf codec maxTokens minTokens overlap ocrText).map
      (fun w => w.window_index + 1)

theorem windowStepPdf_widx {τ : Type} (codec : TokenCodec τ) (maxTokens : Nat)
    (sents : Array (SentItem τ)) (i : Nat) (h : i < sents.size)
    (widx overlap : Nat) :
    (windowStepPdf codec maxTokens sents i h widx overlap).window.window_index
      = widx := by
  simp only [windowStepPdf]
  split
  · split <;> rfl
  · rfl

theorem appendOrMerge_ne_nil (m : Nat) (ws : List Window) (w : Window) :
    appendOrMerge m ws w ≠ [] := by
  cases ws with
  | nil => simp [appendOrMerge]
  | cons p r =>
    simp only [appendOrMerge]
    split <;> simp

/-- Merging mutates only the most recent window and appending prepends, so
the oldest accumulated window's `window_index` never changes. -/
theorem appendOrMerge_getLast_widx (m : Nat) (ws : List Window) (w : Window)
    (h : ws ≠ []) :
    ((appendOrMerge m ws w).getLast?).map Window.window_index =
      (ws.getLast?).map Window.window_index := by
  cases ws with
  | nil => exact absurd rfl h
  | cons p r =>
    simp only [appendOrMerge]
    split
    · cases r with
      | nil => simp
      | cons q r' => simp [List.getLast?_cons_cons]
    · simp [List.getLast?_cons_cons]

/-- The head of the emitted window list (= last of the reversed
accumulator) keeps the `window_index` it entered the loop with. -/
theorem windowLoopPdf_head_widx {τ : Type} (codec : TokenCodec τ)
    (maxTokens minTokens overlap : Nat) (fuel : Nat) :
    ∀ (sents : Array (SentItem τ)) (i widx : Nat) (wsRev : List Window),
      wsRev ≠ [] →
      ((windowLoopPdf fuel codec maxTokens minTokens overlap sents i widx
          wsRev).head?).map Window.window_index =
        (wsRev.getLast?).map Window.window_index := by
  induction fuel with
  | zero =>
    intro sents i widx wsRev _
    simp [windowLoopPdf, List.head?_reverse]
  | succ fuel ih =>
    intro sents i widx wsRev h
    simp only [windowLoopPdf]
    split
    · rw [ih _ _ _ _ (appendOrMerge_ne_nil _ _ _)]
      exact appendOrMerge_getLast_widx _ _ _ h
    · simp [List.head?_reverse]

/-- Starting from an empty accumulator with the cursor in range, the first
emitted window carries the starting `window_index`. -/
theorem windowLoopPdf_head_from_nil {τ : Type} (codec : TokenCodec τ)
    (maxTokens minTokens overlap : Nat) (fuel : Nat)
    (sents : Array (SentItem τ)) (i widx : Nat)
    (hfuel : 0 < fuel) (hi : i < sents.size) :
    ((windowLoopPdf fuel codec maxTokens minTokens overlap sents i widx
        []).head?).map Window.window_index = some widx := by
  cases fuel with
  | zero => exact absurd hfuel (lt_irrefl 0)
  | succ fuel =>
    simp only [windowLoopPdf]
    rw [dif_pos hi]
    rw [windowLoopPdf_head_widx codec maxTokens minTokens overlap fuel _ _ _ _
      (appendOrMerge_ne_nil _ _ _)]
    simp [appendOrMerge, windowStepPdf_widx]

/-- The first window of the PDF/image windower always has
`window_index = 0`: the loop starts at index 0 and a merge never displaces
the oldest window. -/
theorem split_into_windows_pdf_head_widx {τ : Type} (codec : TokenCodec τ)
    (maxTokens minTokens overlap : Nat) (text0 : String) :
    ((split_into_windows_pdf codec maxTokens minTokens overlap
        text0).head?).map Window.window_index = some 0 := by
  simp only [split_into_windows_pdf]
  by_cases h1 : collapseWs text0 = ""
  · rw [if_pos h1]
    rfl
  · rw [if_neg h1]
    by_cases h2 : (mkSentItemsPdf codec (collapseWs text0)).isEmpty
    · rw [if_pos h2]
      rfl
    · rw [if_neg h2]
      have hne : mkSentItemsPdf codec (collapseWs text0) ≠ [] := by
        intro hnil
        rw [hnil] at h2
        exact h2 rfl
      have hpos :
          0 < (mkSentItemsPdf codec (collapseWs text0)).toArray.size := by
        simpa using List.length_pos.mpr hne
      exact windowLoopPdf_head_from_nil codec maxTokens minTokens overlap
        _ _ 0 0 hpos hpos

/-- Every frame's chunk numbering restarts: the first chunk of a frame is
numbered 1 (an OCR-empty frame emits exactly the index 1). -/
theorem image_frame_chunk_indexes_head {τ : Type} (codec : TokenCodec τ)
    (maxTokens minTokens overlap : Nat) (ocrText : String) :
    (image_frame_chunk_indexes codec maxTokens minTokens overlap
        ocrText).head? = some 1 := by
  by_cases h : ocrText = ""
  · simp [image_frame_chunk_indexes, h]
  · have hw := split_into_windows_pdf_head_widx codec maxTokens minTokens
      overlap ocrText
    simp only [image_frame_chunk_indexes, if_neg h, List.head?_map]
    cases hcase : (split_into_windows_pdf codec maxTokens minTokens overlap
        ocrText).head? with
    | none =>
      rw [hcase] at hw
      simp at hw
    | some w =>
      rw [hcase] at hw
      have hw0 : w.window_index = 0 := by simpa using hw
      simp [hw0]

/-! ## Semantic-region labeling -/

/-- `_html.py derive_semantic_region`: classify by
`ratio = token_start / document_total_tokens`.  The `token_end` argument is
unused, as in the source. -/
def derive_semantic_region (token_start _token_end document_total_tokens : Int) :
    String :=
  if document_total_tokens ≤ 0 then "unknown"
  else
    let ratio : ℚ := (token_start : ℚ) / (document_total_tokens : ℚ)
    if ratio < 1/10 then "intro"
    else if ratio < 3/10 then "early"
    else if ratio < 7/10 then "middle"
    else if ratio < 9/10 then "late"
    else "footer"

/-- `pdf.py derive_semantic_region`: classify by the midpoint
`(cumulative_before + chunk_tok/2) / total_tokens` with page-boundary
boosts; thresholds 0.10 / 0.30 / 0.75 / 0.95. -/
def derive_semantic_region_pdf
    (cumulative_before chunk_tok total_tokens page_num total_pages : Int) :
    String :=
  if total_tokens ≤ 0 then
    if page_num = 1 then "intro"
    else if page_num = total_pages then "footer"
    else "middle"
  else
    let midpoint : ℚ :=
      ((cumulative_before : ℚ) + (chunk_tok : ℚ) / 2) / (total_tokens : ℚ)
    if page_num = 1 ∧ midpoint < 15/100 then "intro"
    else if page_num = total_pages ∧ midpoint > 85/100 then "footer"
    else if midpoint < 1/10 then "intro"
    else if midpoint < 3/10 then "early"
    else if midpoint < 75/100 then "middle"
    else if midpoint < 95/100 then "late"
    else "footer"

/-! ## JSON values and `json.dumps(..., ensure_ascii=False, sort_keys=True)`

Objects are constructed below with their keys already in sorted order (the
field lists are written alphabetically), so the renderer needs no sort. -/

inductive JVal where
  | jnull : JVal
  | jbool : Bool → JVal
  | jint : Int → JVal
  | jstr : String → JVal
  | jarr : List JVal → JVal
  | jobj : List (String × JVal) → JVal

def hexDigit (n : Nat) : String :=
  String.singleton (if n < 10 then Char.ofNat (48 + n) else Char.ofNat (87 + n))

/-- `json.dumps` string escaping with `ensure_ascii=False`. -/
def jEscapeChar (c : Char) : String :=
  if c = '"' then "\\\""
  else if c = '\\' then "\\\\"
  else if c = '\n' then "\\n"
  else if c = '\r' then "\\r"
  else if c = '\t' then "\\t"
  else if c = Char.ofNat 8 then "\\b"
  else if c = Char.ofNat 12 then "\\f"
  else if c.toNat < 32 then
    "\\u00" ++ hexDigit (c.toNat / 16) ++ hexDigit (c.toNat % 16)
  else String.singleton c

def jEscape (s : String) : String := String.join (s.toList.map jEscapeChar)

mutual

/-- Render a JSON value with Python's default separators `", "` / `": "`. -/
def renderJVal : JVal → String
  | JVal.jnull => "null"
  | JVal.jbool b => if b then "true" else "false"
  | JVal.jint n => toString n
  | JVal.jstr s => "\"" ++ jEscape s ++ "\""
  | JVal.jarr xs => "[" ++ renderJArr xs ++ "]"
  | JVal.jobj kvs => "\x7b" ++ renderJObj kvs ++ "\x7d"

def renderJArr : List JVal → String
  | [] => ""
  | [x] => renderJVal x
  | x :: xs => renderJVal x ++ ", " ++ renderJArr xs

def renderJObj : List (String × JVal) → String
  | [] => ""
  | [kv] => "\"" ++ jEscape kv.1 ++ "\": " ++ renderJVal kv.2
  | kv :: kvs =>
    "\"" ++ jEscape kv.1 ++ "\": " ++ renderJVal kv.2 ++ ", " ++ renderJObj kvs

end

def jOptStr : Option String → JVal
  | none => JVal.jnull
  | some s => JVal.jstr s

def jStrList (xs : List String) : JVal := JVal.jarr (xs.map JVal.jstr)

/-! ## Chunk records and HTML chunk assembly (`_html.py parse_file`) -/

/-- The raw manifest read alongside a raw object, restricted to the keys the
chunkers consult.  `none` models an absent key. -/
structure Manifest where
  file_hash : Option String
  language : Option String
  last_updated : Option String
  original_url : Option String
  source_url : Option String
  tags : Option (List String)
  timestamp : Option String
  trust_level : Option String
deriving DecidableEq

def manifestToJVal (m : Manifest) : JVal :=
  JVal.jobj (List.filterMap id
    [m.file_hash.map (fun v => ("file_hash", JVal.jstr v)),
     m.language.map (fun v => ("language", JVal.jstr v)),
     m.last_updated.map (fun v => ("last_updated", JVal.jstr v)),
     m.original_url.map (fun v => ("original_url", JVal.jstr v)),
     m.source_url.map (fun v => ("source_url", JVal.jstr v)),
     m.tags.map (fun v => ("tags", jStrList v)),
     m.timestamp.map (fun v => ("timestamp", JVal.jstr v)),
     m.trust_level.map (fun v => ("trust_level", JVal.jstr v))])

structure Provenance where
  raw_sha256 : String
  raw_key : String
  original_url : Option String
deriving DecidableEq

def provenanceToJVal (p : Provenance) : JVal :=
  JVal.jobj [("original_url", jOptStr p.original_url),
             ("raw_key", JVal.jstr p.raw_key),
             ("raw_sha256", JVal.jstr p.raw_sha256)]

/-- An HTML-path chunk record (the dict assembled in `parse_file`).
`embedding` is always `null` at this stage and is fixed in the serializer. -/
structure Chunk where
  document_id : String
  chunk_id : String
  chunk_index : Nat
  chunk_type : String
  text : String
  token_count : Nat
  token_range : Nat × Nat
  document_total_tokens : Nat
  semantic_region : String
  headings : List String
  heading_path : List String
  layout_tags : List String
  figures : List String
  source_url : Option String
  source_domain : Option String
  s3_url : Option String
  local_path : Option String
  language : Option String
  region : Option String
  topic_tags : List String
  trust_level : String
  last_updated : Option String
  ingest_time : String
  parser_version : String
  used_ocr : Bool
  original_manifest : Manifest
  provenance : Provenance
deriving DecidableEq

/-- `json.dumps(chunk, ensure_ascii=False, sort_keys=True)`: the 28 keys of
the HTML chunk dict in sorted order. -/
def chunkToJVal (c : Chunk) : JVal :=
  JVal.jobj
    [("chunk_id", JVal.jstr c.chunk_id),
     ("chunk_index", JVal.jint c.chunk_index),
     ("chunk_type", JVal.jstr c.chunk_type),
     ("document_id", JVal.jstr c.document_id),
     ("document_total_tokens", JVal.jint c.document_total_tokens),
     ("embedding", JVal.jnull),
     ("figures", jStrList c.figures),
     ("heading_path", jStrList c.heading_path),
     ("headings", jStrList c.headings),
     ("ingest_time", JVal.jstr c.ingest_time),
     ("language", jOptStr c.language),
     ("last_updated", jOptStr c.last_updated),
     ("layout_tags", jStrList c.layout_tags),
     ("local_path", jOptStr c.local_path),
     ("original_manifest", manifestToJVal c.original_manifest),
     ("parser_version", JVal.jstr c.parser_version),
     ("provenance", provenanceToJVal c.provenance),
     ("region", jOptStr c.region),
     ("s3_url", jOptStr c.s3_url),
     ("semantic_region", JVal.jstr c.semantic_region),
     ("source_domain", jOptStr c.source_domain),
     ("source_url", jOptStr c.source_url),
     ("text", JVal.jstr c.text),
     ("token_count", JVal.jint c.token_count),
     ("token_range", JVal.jarr [JVal.jint c.token_range.1,
                                JVal.jint c.token_range.2]),
     ("topic_tags", jStrList c.topic_tags),
     ("trust_level", JVal.jstr c.trust_level),
     ("used_ocr", JVal.jbool c.used_ocr)]

/-- Index (if any) of the first occurrence of `pat` in `s`. -/
def findSubIdx (pat : List Char) : List Char → Option Nat
  | [] => if pat.isPrefixOf ([] : List Char) then some 0 else none
  | c :: cs =>
    if pat.isPrefixOf (c :: cs) then some 0
    else (findSubIdx pat cs).map (· + 1)

/-- `urllib.parse.urlparse(src)` reduced to `netloc` / first path segment —
the `source_domain` computation of `parse_file`: `parsed.netloc or
parsed.path.split("/")[0]`.  Covers the URL shapes the pipeline produces
(`scheme://host/...`, `s3://bucket/...`, bare paths). -/
def urlDomain (src : String) : String :=
  let cs := src.toList
  let afterScheme :=
    match findSubIdx "://".toList cs with
    | some i => some (cs.drop (i + 3))
    | none => none
  match afterScheme with
  | some rest =>
    let netloc := rest.takeWhile (fun c => c ≠ '/' && c ≠ '?' && c ≠ '#')
    if netloc.isEmpty then "" else String.mk netloc
  | none => String.mk (cs.takeWhile (fun c => c ≠ '/'))

/-- `str(n).zfill(w)`. -/
def zfill (w : Nat) (n : Nat) : String :=
  let s := toString n
  if s.length < w then String.mk (List.replicate (w - s.length) '0') ++ s
  else s

/-- Storage / naming configuration of the HTML chunker
(`STORAGE`, `S3_BUCKET`, `CHUNKED_PREFIX`, `CHUNKED_SCHEMA_DIR`,
`PARSER_VERSION`, `FORCE_PROCESS`). -/
structure HtmlCfg where
  storageIsS3 : Bool
  s3Bucket : String
  chunkedDir : String
  schemaDir : String
  parserVersion : String
  forceProcess : Bool

def s3_url_for_raw (cfg : HtmlCfg) (key : String) : Option String :=
  if cfg.storageIsS3 && cfg.s3Bucket ≠ "" then
    some ("s3://" ++ cfg.s3Bucket ++ "/" ++ key)
  else none

/-- The chunk-assembly loop of `_html.py parse_file`, from canonical
extracted text to the list of chunk records.  `metaTitle`, `parsedMetaUrl`
and `parsedMetaLanguage` stand for the extractor metadata
(`parsed_meta.get("title"/"url"/"language")`), `title` for the recovered
page title, and `t` for `now_ts()` — the run's wall-clock ingest
timestamp. -/
def html_assemble_chunks {τ : Type} (nfkc : String → String)
    (codec : TokenCodec τ) (maxTokens minTokens overlap : Nat)
    (cfg : HtmlCfg) (key rawSha : String) (man : Manifest)
    (metaTitle parsedMetaUrl parsedMetaLanguage title : Option String)
    (t : String) (extracted_text : String) : List Chunk :=
  let canonical := canonicalize_text nfkc extracted_text
  let total := (codec.encode canonical).length
  let windows :=
    split_into_windows nfkc codec maxTokens minTokens overlap canonical
  let headings0 :=
    match metaTitle with
    | some h => if h ≠ "" then [h] else []
    | none => []
  let headings :=
    match title with
    | some ti =>
      if ti ≠ "" then (if ti ∈ headings0 then headings0 else ti :: headings0)
      else headings0
    | none => headings0
  let document_id := (pyOrStr [man.file_hash]).getD rawSha
  let source_url_authoritative := pyOrStr
    [man.original_url, man.source_url, parsedMetaUrl, s3_url_for_raw cfg key,
     if cfg.storageIsS3 then none else some key]
  let provenance_base : Provenance :=
    { raw_sha256 := rawSha, raw_key := key, original_url := man.original_url }
  windows.map (fun w =>
    let chunk_index := w.window_index + 1
    let s3u := s3_url_for_raw cfg key
    let lp : Option String := if cfg.storageIsS3 then none else some key
    { document_id := document_id,
      chunk_id := document_id ++ "_c" ++ zfill 4 chunk_index,
      chunk_index := chunk_index,
      chunk_type := if windows.length > 1 then "token_window" else "page",
      text := w.text,
      token_count := w.token_count,
      token_range := (w.token_start, w.token_end),
      document_total_tokens := total,
      semantic_region :=
        derive_semantic_region w.token_start w.token_end total,
      headings := headings, heading_path := headings,
      layout_tags := ["html"], figures := [],
      source_url := source_url_authoritative,
      source_domain :=
        (pyOrStr [source_url_authoritative, s3u, lp]).map urlDomain,
      s3_url := s3u, local_path := lp,
      language := parsedMetaLanguage, region := none,
      topic_tags := man.tags.getD [],
      trust_level := man.trust_level.getD "gov",
      last_updated := man.last_updated.filter (fun s => s ≠ ""),
      ingest_time := t, parser_version := cfg.parserVersion,
      used_ocr := false, original_manifest := man,
      provenance := provenance_base })

/-- `"\n".join(json.dumps(c, ensure_ascii=False, sort_keys=True) for c in
chunks) + "\n"` — the chunk-file JSONL byte sequence. -/
def chunk_jsonl (chunks : List Chunk) : String :=
  String.intercalate "\n" (chunks.map (fun c => renderJVal (chunkToJVal c)))
    ++ "\n"

/-! ## Materializer (`_write_chunks_and_extend_raw_manifest`) -/

structure ChunkedMeta where
  chunk_file : String
  chunk_format : String
  schema_version : String
  parser_version : String
  ingest_time : String
  chunk_count : Nat
  chunked_sha256 : Option String
  chunked_size_bytes : Nat
deriving DecidableEq

/-- The raw-manifest fields the materializer reads and writes. -/
structure StoredManifest where
  file_hash : Option String
  timestamp : Option String
  original_url : Option String
  parser_version : Option String
  chunked : Option ChunkedMeta
  saved_chunks : Option Nat
  chunked_manifest_written_at : Option String
deriving DecidableEq

/-- An object-store write performed by the materializer. -/
inductive WriteOp where
  | putChunkFile (path : String) (bytes : String)
  | putManifest (path : String) (man : StoredManifest)
deriving DecidableEq

def emptyStoredManifest : StoredManifest :=
  { file_hash := none, timestamp := none, original_url := none,
    parser_version := none, chunked := none, saved_chunks := none,
    chunked_manifest_written_at := none }

/-- `_write_chunks_and_extend_raw_manifest`: serialize the chunks, compute
the content sha, skip every write when the stored manifest already carries
that sha (and `FORCE_PROCESS` is unset), else write the chunk file and the
extended manifest atomically.  `sha` abstracts `hashlib.sha256(...).
hexdigest()`; `existing` is the manifest read back from the store (`none`
when absent); `t` is `now_ts()`. -/
def write_chunks_and_extend_raw_manifest (sha : String → String)
    (cfg : HtmlCfg) (document_id : String) (chunks : List Chunk)
    (raw_key raw_sha : String) (original_url : Option String)
    (existing : Option StoredManifest) (t : String) :
    (String × Nat × String) × List WriteOp :=
  let jsonl_rel := cfg.schemaDir ++ "/" ++ document_id ++ ".chunks.jsonl"
  let jsonl_text := chunk_jsonl chunks
  let s := sha jsonl_text
  let size := jsonl_text.utf8ByteSize
  let raw_manifest_key := raw_key ++ ".manifest.json"
  let ex := existing.getD emptyStoredManifest
  let chunk_file :=
    if cfg.storageIsS3 then
      "s3://" ++ cfg.s3Bucket ++ "/" ++ cfg.chunkedDir ++ "/" ++ jsonl_rel
    else cfg.chunkedDir ++ "/" ++ jsonl_rel
  match ex.chunked with
  | some cm =>
    if cm.chunked_sha256 = some s && !cfg.forceProcess then
      ((chunk_file, size, s), [])
    else
      let chunked_meta : ChunkedMeta :=
        { chunk_file := chunk_file, chunk_format := "jsonl",
          schema_version := cfg.schemaDir,
          parser_version := cfg.parserVersion, ingest_time := t,
          chunk_count := chunks.length, chunked_sha256 := some s,
          chunked_size_bytes := size }
      let newMan : StoredManifest :=
        { file_hash := some ((pyOrStr [ex.file_hash]).getD raw_sha),
          timestamp := some ((pyOrStr [ex.timestamp]).getD t),
          original_url :=
            match original_url with
            | some u => if u ≠ "" then some u else ex.original_url
            | none => ex.original_url,
          parser_version := some cfg.parserVersion,
          chunked := some chunked_meta,
          saved_chunks := some chunks.length,
          chunked_manifest_written_at := some t }
      ((chunk_file, size, s),
       [WriteOp.putChunkFile (cfg.chunkedDir ++ "/" ++ jsonl_rel) jsonl_text,
        WriteOp.putManifest raw_manifest_key newMan])
  | none =>
    let chunked_meta : ChunkedMeta :=
      { chunk_file := chunk_file, chunk_format := "jsonl",
        schema_version := cfg.schemaDir,
        parser_version := cfg.parserVersion, ingest_time := t,
        chunk_count := chunks.length, chunked_sha256 := some s,
        chunked_size_bytes := size }
    let newMan : StoredManifest :=
      { file_hash := some ((pyOrStr [ex.file_hash]).getD raw_sha),
        timestamp := some ((pyOrStr [ex.timestamp]).getD t),
        original_url :=
          match original_url with
          | some u => if u ≠ "" then some u else ex.original_url
          | none => ex.original_url,
        parser_version := some cfg.parserVersion,
        chunked := some chunked_meta,
        saved_chunks := some chunks.length,
        chunked_manifest_written_at := some t }
    ((chunk_file, size, s),
     [WriteOp.putChunkFile (cfg.chunkedDir ++ "/" ++ jsonl_rel) jsonl_text,
      WriteOp.putManifest raw_manifest_key newMan])

/-! ## PDF chunk assembly (`pdf.py parse_pdf`) -/

/-- A PDF-path chunk record (the payload dicts of `parse_pdf`). -/
structure PdfChunk where
  document_id : String
  chunk_id : String
  chunk_index : Nat
  chunk_type : String
  text : String
  token_count : Nat
  token_range : Nat × Nat
  document_total_tokens : Nat
  semantic_region : String
  figures : List String
  file_type : String
  source_url : String
  page_number : Nat
  timestamp : String
  parser_version : String
  used_ocr : Bool
  original_manifest : Manifest
  provenance : Provenance
deriving DecidableEq

/-- The `for idx, w in enumerate(windows)` loop of one PDF page: emit one
chunk per window, threading `cumulative_tokens`. -/
def pdfWindowChunks (document_id srcUrl : String) (figures : List String)
    (usedOcr : Bool) (man : Manifest) (prov : Provenance)
    (parserVersion t : String) (total pageNum totalPages : Nat) :
    Nat → Nat → List Window → List PdfChunk × Nat
  | _, cum, [] => ([], cum)
  | idx, cum, w :: ws =>
    let c : PdfChunk :=
      { document_id := document_id,
        chunk_id := document_id ++ "_p" ++ toString pageNum ++ "_"
          ++ zfill 4 idx,
        chunk_index := idx,
        chunk_type := "pdf_page_chunk",
        text := w.text,
        token_count := w.token_count,
        token_range := (w.token_start, w.token_end),
        document_total_tokens := total,
        semantic_region := derive_semantic_region_pdf cum w.token_count total
          pageNum totalPages,
        figures := figures, file_type := "application/pdf",
        source_url := srcUrl, page_number := pageNum, timestamp := t,
        parser_version := parserVersion, used_ocr := usedOcr,
        original_manifest := man, provenance := prov }
    let rest := pdfWindowChunks document_id srcUrl figures usedOcr man prov
      parserVersion t total pageNum totalPages (idx + 1)
      (cum + w.token_count) ws
    (c :: rest.1, rest.2)

/-- Chunks of one PDF page.  An unreadable/empty page still emits one empty
chunk (`chunk_id` suffix `_0000`, `chunk_index` 0) preserving provenance. -/
def pdf_page_chunks {τ : Type} (codec : TokenCodec τ)
    (maxTokens minTokens overlap : Nat) (document_id srcUrl : String)
    (figures : List String) (usedOcr : Bool) (man : Manifest)
    (prov : Provenance) (parserVersion t : String)
    (total pageNum totalPages cum : Nat) (clean_text : String) :
    List PdfChunk × Nat :=
  if clean_text = "" then
    ([{ document_id := document_id,
        chunk_id := document_id ++ "_p" ++ toString pageNum ++ "_0000",
        chunk_index := 0, chunk_type := "pdf_page_chunk", text := "",
        token_count := 0, token_range := (0, 0),
        document_total_tokens := total,
        semantic_region :=
          derive_semantic_region_pdf cum 0 total pageNum totalPages,
        figures := figures, file_type := "application/pdf",
        source_url := srcUrl, page_number := pageNum, timestamp := t,
        parser_version := parserVersion, used_ocr := usedOcr,
        original_manifest := man, provenance := prov }], cum)
  else
    let windows :=
      split_into_windows_pdf codec maxTokens minTokens overlap clean_text
    pdfWindowChunks document_id srcUrl figures usedOcr man prov parserVersion
      t total pageNum totalPages 0 cum windows

/-- The per-page loop of `parse_pdf`: `pages` carries each page's cleaned
text and OCR/table figure texts; `tess` models `pytesseract is not None`. -/
def pdf_assemble_aux {τ : Type} (codec : TokenCodec τ)
    (maxTokens minTokens overlap : Nat) (document_id srcUrl : String)
    (tess : Bool) (man : Manifest) (prov : Provenance)
    (parserVersion t : String) (total totalPages : Nat) :
    Nat → Nat → List (String × List String) → List PdfChunk
  | _, _, [] => []
  | pageno, cum, (clean_text, figures) :: rest =>
    let usedOcr := !figures.isEmpty && tess
    let r := pdf_page_chunks codec maxTokens minTokens overlap document_id
      srcUrl figures usedOcr man prov parserVersion t total (pageno + 1)
      totalPages cum clean_text
    r.1 ++ pdf_assemble_aux codec maxTokens minTokens overlap document_id
      srcUrl tess man prov parserVersion t total totalPages (pageno + 1)
      r.2 rest

/-- `parse_pdf` chunk assembly: total document tokens are the sum of
per-page token counts; `cumulative_tokens` threads across pages. -/
def pdf_assemble_chunks {τ : Type} (codec : TokenCodec τ)
    (maxTokens minTokens overlap : Nat) (storageIsS3 : Bool)
    (s3Bucket key rawSha : String) (tess : Bool) (man : Manifest)
    (parserVersion t : String) (pages : List (String × List String)) :
    List PdfChunk :=
  let document_id := (pyOrStr [man.file_hash]).getD rawSha
  let srcUrl := (pyOrStr [man.original_url]).getD
    (if storageIsS3 then "s3://" ++ s3Bucket ++ "/" ++ key else key)
  let prov : Provenance :=
    { raw_sha256 := rawSha, raw_key := key, original_url := man.original_url }
  let total := (pages.map (fun p =>
    if p.1 = "" then 0 else (codec.encode p.1).length)).sum
  pdf_assemble_aux codec maxTokens minTokens overlap document_id srcUrl tess
    man prov parserVersion t total pages.length 0 0 pages

/-! ## Retriever (`retriever.py`)

Distances and scores are floats in the source; they are only divided,
multiplied and compared, so the model uses `ℚ`.  The query embedding feeds
only the SQL the vector store executes, so the store's reply is an explicit
outcome parameter. -/

/-- The `meta` bag keys `trust_weight_for` consults. -/
structure Meta where
  trust_level : Option String
  trust : Option String
deriving DecidableEq

/-- One row of the pgvector candidate fetch (`pgvector_search` results). -/
structure Candidate where
  document_id : Option String
  chunk_id : String
  chunk_index : Option Int
  text : Option String
  meta : Meta
  source_url : Option String
  page_number : Option Int
  distance : Option ℚ
deriving DecidableEq

/-- `compute_similarity_from_distance`: `1/(1+distance)`, 0 for a missing
distance.  (`ℚ` division by zero is 0, which coincides with the source's
`except → 0.0` at `distance = -1`.) -/
def compute_similarity_from_distance (d : Option ℚ) : ℚ :=
  match d with
  | none => 0
  | some x => 1 / (1 + x)

/-- `trust_weight_for`: trust-level table lookup with default 1.0. -/
def trust_weight_for (m : Meta) : ℚ :=
  let tl := (pyOrStr [m.trust_level, m.trust]).getD ""
  let l := pyLower tl
  if l = "gov" then 1
  else if l = "government" then 1
  else if l = "implementing_agency" then 95/100
  else if l = "agency" then 95/100
  else if l = "ngo" then 8/10
  else if l = "news" then 6/10
  else 1

/-- A candidate with the computed ranking fields the source stores back
onto the dict. -/
structure Scored where
  cand : Candidate
  similarity : ℚ
  trust_weight : ℚ
  final_score : ℚ
deriving DecidableEq

def scoreCandidate (c : Candidate) : Scored :=
  let sim := compute_similarity_from_distance c.distance
  let tw := trust_weight_for c.meta
  { cand := c, similarity := sim, trust_weight := tw,
    final_score := sim * tw }

/-- The sort key `(-final_score, -similarity, chunk_id)` of
`re_rank_and_select` as a total preorder. -/
def rankLe (a b : Scored) : Prop :=
  a.final_score > b.final_score ∨
    (a.final_score = b.final_score ∧
      (a.similarity > b.similarity ∨
        (a.similarity = b.similarity ∧ a.cand.chunk_id ≤ b.cand.chunk_id)))

instance : DecidableRel rankLe := fun a b => by
  unfold rankLe; infer_instance

instance : IsTotal Scored rankLe := by
  constructor
  intro a b
  rcases lt_trichotomy a.final_score b.final_score with hf | hf | hf
  · right; left; exact hf
  · rcases lt_trichotomy a.similarity b.similarity with hs | hs | hs
    · right; right; exact ⟨hf.symm, Or.inl hs⟩
    · rcases le_total a.cand.chunk_id b.cand.chunk_id with hc | hc
      · left; right; exact ⟨hf, Or.inr ⟨hs, hc⟩⟩
      · right; right; exact ⟨hf.symm, Or.inr ⟨hs.symm, hc⟩⟩
    · left; right; exact ⟨hf, Or.inl hs⟩
  · left; left; exact hf

instance : IsTrans Scored rankLe := by
  constructor
  intro a b c hab hbc
  rcases hab with hf | ⟨hf, hs⟩
  · rcases hbc with hf' | ⟨hf', _⟩
    · exact Or.inl (lt_trans hf' hf)
    · exact Or.inl (hf' ▸ hf)
  · rcases hbc with hf' | ⟨hf', hs'⟩
    · exact Or.inl (hf ▸ hf')
    · refine Or.inr ⟨hf.trans hf', ?_⟩
      rcases hs with h1 | ⟨h1, h2⟩
      · rcases hs' with h1' | ⟨h1', _⟩
        · exact Or.inl (lt_trans h1' h1)
        · exact Or.inl (h1' ▸ h1)
      · rcases hs' with h1' | ⟨h1', h2'⟩
        · exact Or.inl (h1 ▸ h1')
        · exact Or.inr ⟨h1.trans h1', le_trans h2 h2'⟩

/-- `re_rank_and_select`: score every candidate, sort by
`(-final_score, -similarity, chunk_id)` (stable, like Python's `sort`) and
keep the first `final_k`. -/
def re_rank_and_select (candidates : List Candidate) (final_k : Nat) :
    List Scored :=
  (((candidates.map scoreCandidate).insertionSort rankLe).take final_k)

/-- `_normalize_text_key`: `""` for falsy input, else the
whitespace-collapsed lowercase NFKC normalization.  The source hashes this
string with sha256 purely to get a fixed-size set key; the model uses the
normalized string itself (collisions are outside the model). -/
def normalize_text_key (nfkc : String → String) (s : Option String) :
    String :=
  match s with
  | none => ""
  | some t => if t = "" then "" else collapseWs (pyLower (nfkc t))

/-- The loop of `dedupe_candidates_keep_nearest`: keep the first candidate
per normalized key, stop once `max_keep` have been kept (the source breaks
after appending). -/
def dedupeAux (nfkc : String → String) (maxKeep : Nat) :
    List String → Nat → List Candidate → List Candidate
  | _, _, [] => []
  | seen, k, c :: cs =>
    let key := normalize_text_key nfkc c.text
    if key ∈ seen then dedupeAux nfkc maxKeep seen k cs
    else if k + 1 ≥ maxKeep then [c]
    else c :: dedupeAux nfkc maxKeep (key :: seen) (k + 1) cs

def dedupe_candidates_keep_nearest (nfkc : String → String)
    (candidates : List Candidate) (maxKeep : Nat) : List Candidate :=
  dedupeAux nfkc maxKeep [] 0 candidates

/-- A formatted passage (`retrieve` step 5). -/
structure Passage where
  number : Int
  chunk_id : String
  document_id : Option String
  chunk_index : Option Int
  text : String
  meta : Meta
  source_url : Option String
  page_number : Option Int
  score : ℚ
  distance : Option ℚ
deriving DecidableEq

/-- The passage dict built for one ranked candidate (`retrieve` step 5). -/
def passageOfScored (n : Int) (r : Scored) : Passage :=
  { number := n, chunk_id := r.cand.chunk_id,
    document_id := r.cand.document_id, chunk_index := r.cand.chunk_index,
    text := (pyOrStr [r.cand.text]).getD "", meta := r.cand.meta,
    source_url := r.cand.source_url, page_number := r.cand.page_number,
    score := r.final_score, distance := r.cand.distance }

/-- `for i, r in enumerate(ranked)`: 1-based passage numbers. -/
def formatPassages : Int → List Scored → List Passage
  | _, [] => []
  | n, r :: rs => passageOfScored n r :: formatPassages (n + 1) rs

/-- Steps 3–5 of `retrieve`: dedupe (candidates arrive ordered by distance
from the store), re-rank, format. -/
def retriever_passages (nfkc : String → String)
    (candidates : List Candidate) (raw_k top_k : Nat) : List Passage :=
  formatPassages 1
    (re_rank_and_select (dedupe_candidates_keep_nearest nfkc candidates raw_k)
      top_k)

structure RetrieveResult where
  request_id : String
  passages : List Passage
  chunk_ids : List String
  top_similarity : ℚ
  error : Option String
deriving DecidableEq

/-- `retrieve(event)` with the two upstream calls externalized:
`embedOut` is the Bedrock embedding call (its value only feeds the SQL),
`searchOut` the pgvector query.  `top_k`/`raw_k` are the resolved values
`int(event.get("top_k") or FINAL_K)` / `int(event.get("raw_k") or RAW_K)`.
Each upstream failure is caught and returned as an error payload with empty
passages — `retrieve` does not raise for them. -/
def retrieve (nfkc : String → String) (request_id query : String)
    (embedOut : Except String Unit)
    (searchOut : Except String (List Candidate)) (top_k raw_k : Nat) :
    RetrieveResult :=
  if pyStrip query = "" then
    { request_id := request_id, passages := [], chunk_ids := [],
      top_similarity := 0, error := some "invalid_request" }
  else
    match embedOut with
    | Except.error _ =>
      { request_id := request_id, passages := [], chunk_ids := [],
        top_similarity := 0, error := some "embed_failed" }
    | Except.ok _ =>
      match searchOut with
      | Except.error _ =>
        { request_id := request_id, passages := [], chunk_ids := [],
          top_similarity := 0, error := some "vector_search_failed" }
      | Except.ok candidates =>
        if candidates.isEmpty then
          { request_id := request_id, passages := [], chunk_ids := [],
            top_similarity := 0, error := none }
        else
          let passages := retriever_passages nfkc candidates raw_k top_k
          let top_similarity :=
            match passages with
            | p :: _ => p.score
            | [] => 0
          { request_id := request_id, passages := passages,
            chunk_ids := passages.map (fun p => p.chunk_id),
            top_similarity := top_similarity, error := none }

/-! ## Generator (`generator.py`) -/

def SYSTEM_PROMPT : String :=
  "SYSTEM INSTRUCTIONS:\n" ++
  "- You MUST answer ONLY using the provided numbered passages.\n" ++
  "- Each factual sentence MUST end with a citation in the exact form [n] where n is the passage number.\n" ++
  "- Use ONLY the provided passage numbers. Do NOT invent or infer facts not present in the passages.\n" ++
  "- Do NOT include URLs, filenames, page numbers, or any other metadata.\n" ++
  "- If the passages do not contain enough information to answer, reply exactly: NOT_ENOUGH_INFORMATION\n" ++
  "- Always answer in the same language as the user's query.\n" ++
  "- Keep answers brief and simple.\n"

/-- `build_user_prompt`: LANGUAGE header, system instructions, passages
ordered by number (stable sort, as Python's `sorted`), each with internal
newlines collapsed to single spaces, then the question. -/
def build_user_prompt (language question : String)
    (passages : List Passage) : String :=
  let header := ["LANGUAGE: " ++ language, "", pyStrip SYSTEM_PROMPT, ""]
  let sorted_passages :=
    passages.insertionSort (fun a b => a.number ≤ b.number)
  let passageLines := sorted_passages.map (fun p =>
    toString p.number ++ ". " ++
      String.intercalate " " ((pySplitlines p.text).map pyStrip))
  String.intercalate "\n"
    (header ++ ["PASSAGES:"] ++ passageLines ++
      ["", "QUESTION:", pyStrip question, "", "Answer briefly."])

/-- The disallowed substrings of generator output. -/
def DISALLOWED_SUBSTRINGS : List String :=
  ["http://", "https://", "www.", "file://"]

def digitsToNat (ds : List Char) : Nat :=
  ds.foldl (fun acc c => acc * 10 + (c.toNat - 48)) 0

/-- `CITATION_PAT = \[(\d+)\]\s*$` searched in an already-stripped line:
the line must end with `[` digits `]`. -/
def lineCitation (ln : String) : Option Nat :=
  match ln.toList.reverse with
  | ']' :: rest =>
    let ds := rest.takeWhile Char.isDigit
    if ds.isEmpty then none
    else
      match rest.drop ds.length with
      | '[' :: _ => some (digitsToNat ds.reverse)
      | _ => none
  | _ => none

/-- `any(s in ln.lower() for s in DISALLOWED_SUBSTRINGS)`. -/
def disallowedHit (ln : String) : Bool :=
  DISALLOWED_SUBSTRINGS.any (fun pat => strContainsSub (pyLower ln) pat)

/-- `max((int(p.get("number", 0)) for p in passages), default=0)`. -/
def maxPassNumber (ps : List Passage) : Int :=
  match ps with
  | [] => 0
  | p :: rest => rest.foldl (fun a q => max a q.number) p.number

structure GenValidation where
  decision : String
  answer_lines : List String
  confidence : Option String
deriving DecidableEq

/-- The per-line loop of `validate_and_parse_output`: `none` at the first
violating line, else all lines kept in order. -/
def validateLines (maxPass : Int) : List String → Option (List String)
  | [] => some []
  | ln :: rest =>
    match lineCitation ln with
    | none => none
    | some n =>
      if (n : Int) < 1 || (n : Int) > maxPass then none
      else if disallowedHit ln then none
      else (validateLines maxPass rest).map (fun ls => ln :: ls)

/-- `validate_and_parse_output(raw, passages)`. -/
def validate_and_parse_output (raw : Option String)
    (passages : List Passage) : GenValidation :=
  match raw with
  | none => { decision := "INVALID_OUTPUT", answer_lines := [],
              confidence := none }
  | some r0 =>
    let r := pyStrip r0
    if r = "" then
      { decision := "INVALID_OUTPUT", answer_lines := [], confidence := none }
    else if r = "NOT_ENOUGH_INFORMATION" then
      { decision := "NOT_ENOUGH_INFORMATION", answer_lines := [],
        confidence := none }
    else
      let lines := ((pySplitlines r).map pyStrip).filter (fun s => s ≠ "")
      if lines.isEmpty then
        { decision := "INVALID_OUTPUT", answer_lines := [],
          confidence := none }
      else
        let maxPass := maxPassNumber passages
        if maxPass < 1 then
          { decision := "INVALID_OUTPUT", answer_lines := [],
            confidence := none }
        else
          match validateLines maxPass lines with
          | none =>
            { decision := "INVALID_OUTPUT", answer_lines := [],
              confidence := none }
          | some als =>
            { decision := "ACCEPT", answer_lines := als,
              confidence := some "high" }

/-! ## Query orchestrator (`query.py`)

The retriever and generator calls are externalized as `Except` outcomes
(`Except.error` models the call raising).  Audit writes are fire-and-forget
in the source (failures never reach the response) and are not modelled. -/

def isWordChar (c : Char) : Bool := c.isAlphanum || c = '_'

/-- `\b alt \b` search for a literal alternative whose first and last
characters are word characters (true of every blocklist alternative). -/
def wordBoundedSearchAux (alt : List Char) : Option Char → List Char → Bool
  | _, [] => false
  | prev, c :: cs =>
    ((match prev with
      | none => true
      | some p => !isWordChar p) &&
     alt.isPrefixOf (c :: cs) &&
     (match (c :: cs).drop alt.length with
      | [] => true
      | c' :: _ => !isWordChar c')) ||
    wordBoundedSearchAux alt (some c) cs

def wordBoundedSearch (alt : List Char) (s : List Char) : Bool :=
  wordBoundedSearchAux alt none s

/-- Literal alternatives of
`\b(medic(al|ine)|prescribe|diagnos|symptom|pill|dosage)\b`. -/
def medicalAlts : List String :=
  ["medical", "medicine", "prescribe", "diagnos", "symptom", "pill", "dosage"]

/-- Literal alternatives of
`\b(attorney|sue|lawsuit|contract|custody|divorce|legal advice|crime)\b`. -/
def legalAlts : List String :=
  ["attorney", "sue", "lawsuit", "contract", "custody", "divorce",
   "legal advice", "crime"]

/-- One `re.I` blocklist pattern applied to the query. -/
def intentPatternHit (alts : List String) (query : String) : Bool :=
  let q := (pyLower query).toList
  alts.any (fun alt => wordBoundedSearch alt.toList q)

/-- `_intent_blocked`: first matching category's guidance key (dict order:
medical, then legal). -/
def intent_blocked (query : String) : Option String :=
  if intentPatternHit medicalAlts query then some "refusal_medical"
  else if intentPatternHit legalAlts query then some "refusal_legal"
  else none

/-- A canonical request as the adapters deliver it.  `asr_confidence` is
the value after the source's `float(...)` coercion (`none` for absent or
non-numeric). -/
structure Event where
  request_id : Option String
  session_id : Option String
  language : Option String
  channel : Option String
  query : Option String
  question : Option String
  top_k : Option Int
  raw_k : Option Int
  asr_confidence : Option ℚ
  region : Option String
deriving DecidableEq

structure ValidatedRequest where
  request_id : String
  session_id : Option String
  language : String
  channel : String
  query : String
  top_k : Option Int
  raw_k : Option Int
  asr_confidence : Option ℚ
  region : Option String
deriving DecidableEq

/-- The `{"error": ..., "request_id": ...}` dict `_validate_request_shape`
returns on a violation. -/
structure ValError where
  error : String
  request_id : String
deriving DecidableEq

def ALLOWED_LANGUAGES : List String := ["en", "hi", "ta"]
def ALLOWED_CHANNELS : List String := ["web", "sms", "voice"]

/-- `_validate_request_shape`.  `genId` stands for the generated fallback
id `f"r-{int(time.time() * 1000)}"`. -/
def validate_request_shape (genId : String) (ev : Event) :
    Except ValError ValidatedRequest :=
  let req_id := (pyOrStr [ev.request_id]).getD genId
  let language := pyLower (pyStrip (ev.language.getD ""))
  let channel := pyLower (pyStrip (ev.channel.getD ""))
  let query_text := pyStrip ((pyOrStr [ev.query, ev.question]).getD "")
  if language = "" || language ∉ ALLOWED_LANGUAGES then
    Except.error { error := "invalid_language", request_id := req_id }
  else if channel = "" || channel ∉ ALLOWED_CHANNELS then
    Except.error { error := "invalid_channel", request_id := req_id }
  else if query_text = "" then
    Except.error { error := "empty_query", request_id := req_id }
  else if channel = "voice" && ev.asr_confidence = none then
    Except.error { error := "missing_asr_confidence", request_id := req_id }
  else
    Except.ok
      { request_id := req_id, session_id := ev.session_id,
        language := language, channel := channel, query := query_text,
        top_k := ev.top_k, raw_k := ev.raw_k,
        asr_confidence :=
          if channel = "voice" then ev.asr_confidence else none,
        region := ev.region }

structure QoConfig where
  minSimilarity : ℚ
  asrConfThreshold : ℚ

/-- `_enforce_asr`. -/
def enforce_asr (cfg : QoConfig) (asr : Option ℚ) : Option String :=
  match asr with
  | none => none
  | some a =>
    if a < cfg.asrConfThreshold then some "refusal_asr_low_confidence"
    else none

structure Citation where
  citation : Int
  chunk_id : String
  source_url : Option String
  meta : Meta
deriving DecidableEq

/-- `_hydrate_citation_metadata`. -/
def hydrate_citation_metadata (passages : List Passage) : List Citation :=
  passages.map (fun p =>
    { citation := p.number, chunk_id := p.chunk_id,
      source_url := p.source_url, meta := p.meta })

/-- The orchestrator's response object. -/
structure Response where
  request_id : String
  resolution : String
  answer_lines : List String
  citations : List Citation
  confidence : Option String
  guidance_key : Option String
  error : Option String
  top_similarity : Option ℚ
deriving DecidableEq

/-- The externalized collaborator outcomes of one `handle` call. -/
structure Deps where
  retrieverOut : Except String RetrieveResult
  generatorOut : Except String GenValidation

def refusalResponse (req_id gk : String) : Response :=
  { request_id := req_id, resolution := "refusal", answer_lines := [],
    citations := [], confidence := none, guidance_key := some gk,
    error := none, top_similarity := none }

def plainResponse (req_id res : String) (err : Option String)
    (ts : Option ℚ) : Response :=
  { request_id := req_id, resolution := res, answer_lines := [],
    citations := [], confidence := none, guidance_key := none,
    error := err, top_similarity := ts }

/-- `handle(event)`: validate, ASR gate, intent blocklist, retrieve,
similarity gate, generate, interpret the generator decision. -/
def handle (cfg : QoConfig) (genId : String) (deps : Deps) (ev : Event) :
    Response :=
  match validate_request_shape genId ev with
  | Except.error e => refusalResponse e.request_id "invalid_request"
  | Except.ok v =>
    let asrRef :=
      if v.channel = "voice" then enforce_asr cfg v.asr_confidence else none
    match asrRef with
    | some gk => refusalResponse v.request_id gk
    | none =>
      match intent_blocked v.query with
      | some gk => refusalResponse v.request_id gk
      | none =>
        match deps.retrieverOut with
        | Except.error _ =>
          plainResponse v.request_id "invalid_output"
            (some "retrieval_failed") none
        | Except.ok retr =>
          let passages := retr.passages
          let top_similarity := retr.top_similarity
          if passages.isEmpty then
            plainResponse v.request_id "not_enough_info" none none
          else if top_similarity < cfg.minSimilarity then
            plainResponse v.request_id "not_enough_info" none
              (some top_similarity)
          else
            match deps.generatorOut with
            | Except.error _ =>
              plainResponse v.request_id "invalid_output"
                (some "generator_failed") none
            | Except.ok g =>
              if g.decision = "NOT_ENOUGH_INFORMATION" then
                plainResponse v.request_id "not_enough_info" none none
              else if g.decision ≠ "ACCEPT" then
                plainResponse v.request_id "invalid_output" none none
              else if g.answer_lines.isEmpty then
                plainResponse v.request_id "invalid_output" none none
              else
                { request_id := v.request_id, resolution := "answer",
                  answer_lines := g.answer_lines,
                  citations := hydrate_citation_metadata passages,
                  confidence := some (g.confidence.getD "low"),
                  guidance_key := none, error := none,
                  top_similarity := none }

/-! ## Shared concrete instances for witnesses and counterexamples -/

def sampleManifest : Manifest :=
  { file_hash := some "doc1", language := none, last_updated := none,
    original_url := some "https://gov.in/schemes", source_url := none,
    tags := some ["scheme"], timestamp := some "2024-01-01T00:00:00Z",
    trust_level := some "gov" }

def sampleHtmlCfg : HtmlCfg :=
  { storageIsS3 := true, s3Bucket := "b", chunkedDir := "data/chunked",
    schemaDir := "chunked_v1", parserVersion := "html-trafilatura-v1",
    forceProcess := false }

def sampleQoCfg : QoConfig :=
  { minSimilarity := 6/10, asrConfThreshold := 75/100 }

def sampleEvent : Event :=
  { request_id := some "r1", session_id := none, language := some "en",
    channel := some "web", query := some "How to apply for a voter id?",
    question := none, top_k := none, raw_k := none, asr_confidence := none,
    region := none }

/-! ## C9 — semantic-region labeling -/

/-- The claim's HTML-path rule, written from the spec's words: ratio
`token_start / document_total_tokens`; `<0.10` intro, `<0.30` early,
`<0.70` middle, `<0.90` late, else footer; `total ≤ 0` unknown. -/
def claim_semantic_region_html (token_start document_total_tokens : Int) :
    String :=
  if document_total_tokens ≤ 0 then "unknown"
  else
    let ratio : ℚ := (token_start : ℚ) / (document_total_tokens : ℚ)
    if ratio < 1/10 then "intro"
    else if ratio < 3/10 then "early"
    else if ratio < 7/10 then "middle"
    else if ratio < 9/10 then "late"
    else "footer"

/-- The claim's PDF-path rule, written from the claim's words: midpoint
`(token_start + token_count/2)/total`, the two boundary boosts, and
"otherwise the same thresholds" — i.e. the HTML thresholds 0.10 / 0.30 /
0.70 / 0.90.  (The claim is silent on `total ≤ 0` for PDF; the source's
page-based fallback is kept so that the comparison isolates the
thresholds.) -/
def claim_semantic_region_pdf (cumulative_before chunk_tok total_tokens
    page_num total_pages : Int) : String :=
  if total_tokens ≤ 0 then
    if page_num = 1 then "intro"
    else if page_num = total_pages then "footer"
    else "middle"
  else
    let midpoint : ℚ :=
      ((cumulative_before : ℚ) + (chunk_tok : ℚ) / 2) / (total_tokens : ℚ)
    if page_num = 1 ∧ midpoint < 15/100 then "intro"
    else if page_num = total_pages ∧ midpoint > 85/100 then "footer"
    else if midpoint < 1/10 then "intro"
    else if midpoint < 3/10 then "early"
    else if midpoint < 7/10 then "middle"
    else if midpoint < 9/10 then "late"
    else "footer"

/-- The PDF-path rule actually implemented, written as amended: the same
midpoint and boosts, but middle/late cut at 0.75 / 0.95 (not 0.70 / 0.90),
and `total ≤ 0` classified by page position (first page intro, last page
footer, else middle) rather than unknown. -/
def amended_semantic_region_pdf (cumulative_before chunk_tok total_tokens
    page_num total_pages : Int) : String :=
  if total_tokens ≤ 0 then
    if page_num = 1 then "intro"
    else if page_num = total_pages then "footer"
    else "middle"
  else
    let midpoint : ℚ :=
      ((cumulative_before : ℚ) + (chunk_tok : ℚ) / 2) / (total_tokens : ℚ)
    if page_num = 1 ∧ midpoint < 15/100 then "intro"
    else if page_num = total_pages ∧ midpoint > 85/100 then "footer"
    else if midpoint < 1/10 then "intro"
    else if midpoint < 3/10 then "early"
    else if midpoint < 75/100 then "middle"
    else if midpoint < 95/100 then "late"
    else "footer"

/-- C9 counterexample: a window with midpoint 0.72 on a middle page.  The
claim ("the same thresholds": `< 0.70` middle, else late) predicts `late`;
the source's `pdf.py derive_semantic_region` uses `< 0.75` for middle and
returns `middle`. -/
theorem C9_counterexample_pdf_thresholds :
    derive_semantic_region_pdf 70 4 100 2 3 = "middle" ∧
    claim_semantic_region_pdf 70 4 100 2 3 = "late" ∧
    "middle" ≠ "late" := by
  refine ⟨?_, ?_, by decide⟩
  · unfold derive_semantic_region_pdf
    norm_num
  · unfold claim_semantic_region_pdf
    norm_num

/-- C9 (amended): the HTML path classifies `token_start /
document_total_tokens` exactly as the claim states (`<0.10` intro, `<0.30`
early, `<0.70` middle, `<0.90` late, else footer, `total ≤ 0` unknown); the
PDF path uses the claimed midpoint and boundary boosts but cuts
middle/late at 0.75 / 0.95, and classifies `total ≤ 0` by page position. -/
theorem C9_semantic_region_amended
    (ts te total cb ct pg pgs : Int) :
    derive_semantic_region ts te total = claim_semantic_region_html ts total ∧
    derive_semantic_region_pdf cb ct total pg pgs =
      amended_semantic_region_pdf cb ct total pg pgs :=
  ⟨rfl, rfl⟩

/-! ## C6 — chunk_index numbering -/

theorem pdfWindowChunks_indexes (document_id srcUrl : String)
    (figures : List String) (usedOcr : Bool) (man : Manifest)
    (prov : Provenance) (parserVersion t : String)
    (total pageNum totalPages : Nat) (idx cum : Nat) (ws : List Window) :
    ((pdfWindowChunks document_id srcUrl figures usedOcr man prov
        parserVersion t total pageNum totalPages idx cum ws).1.map
      PdfChunk.chunk_index) = List.range' idx ws.length := by
  induction ws generalizing idx cum with
  | nil => simp [pdfWindowChunks, List.range']
  | cons w ws ih => simp [pdfWindowChunks, List.range', ih]

/-- C6 counterexample: (a) a one-page PDF document's only chunk carries
`chunk_index = 0` — the PDF path numbers chunks 0-based (per page), so
chunk_index is not 1-based there; (b) on the HTML path a merged undersized
window still consumes a `window_index` (the counter is incremented before
the merge check), so the emitted sequence can have gaps: the document
"a b c. d. e f g." at max_tokens 3, min_tokens 2, overlap 0 packs its
middle sentence into an undersized window that is merged into the first,
and the emitted chunk_index values are [1, 3] — 1-based but not dense. -/
theorem C6_counterexample_chunk_index :
    ((pdf_assemble_chunks wsCodec 512 100 2 true "b" "k" "sha1" true
        sampleManifest "pdf-v1" "t0" [("Hello world.", [])]).map
      PdfChunk.chunk_index) = [0] ∧
    ((html_assemble_chunks id wsCodec 3 2 0 sampleHtmlCfg "k1" "sha1"
        sampleManifest none none none none "t0" "a b c. d. e f g.").map
      Chunk.chunk_index) = [1, 3] := by
  constructor
  · decide
  · decide

/-- C6 (amended): on the HTML path every chunk's `chunk_index` is exactly
`window_index + 1` of its window — hence 1-based, but not necessarily
dense, since a merged undersized window consumes an index
(`C6_counterexample_chunk_index`); on the PDF path a page's chunks carry
the 0-based window positions `0..n-1` within that page (an empty page
emits the single index 0); on the image path each frame's chunks are
numbered `window_index + 1` independently of other frames — 1-based,
restarting at 1 for every frame, with an OCR-empty frame emitting the
single index 1. -/
theorem C6_chunk_index_amended {τ : Type} (nfkc : String → String)
    (codec : TokenCodec τ) (maxTokens minTokens overlap : Nat)
    (cfg : HtmlCfg) (key rawSha : String) (man : Manifest)
    (metaTitle parsedMetaUrl parsedMetaLanguage title : Option String)
    (t : String) (extracted_text : String)
    (document_id srcUrl : String) (figures : List String) (usedOcr : Bool)
    (prov : Provenance) (parserVersion tp : String)
    (total pageNum totalPages cum : Nat) (clean_text : String)
    (ocrText : String) :
    ((html_assemble_chunks nfkc codec maxTokens minTokens overlap cfg
        key rawSha man metaTitle parsedMetaUrl parsedMetaLanguage title t
        extracted_text).map Chunk.chunk_index) =
      ((split_into_windows nfkc codec maxTokens minTokens overlap
          (canonicalize_text nfkc extracted_text)).map
        (fun w => w.window_index + 1)) ∧
    (∀ c ∈ html_assemble_chunks nfkc codec maxTokens minTokens overlap cfg
        key rawSha man metaTitle parsedMetaUrl parsedMetaLanguage title t
        extracted_text, 1 ≤ c.chunk_index) ∧
    ((pdf_page_chunks codec maxTokens minTokens overlap document_id srcUrl
        figures usedOcr man prov parserVersion tp total pageNum totalPages
        cum clean_text).1.map PdfChunk.chunk_index) =
      (if clean_text = "" then [0]
       else List.range
         (split_into_windows_pdf codec maxTokens minTokens overlap
           clean_text).length) ∧
    (∀ n ∈ image_frame_chunk_indexes codec maxTokens minTokens overlap
        ocrText, 1 ≤ n) ∧
    (image_frame_chunk_indexes codec maxTokens minTokens overlap
        ocrText).head? = some 1 := by
  refine ⟨?_, ?_, ?_, ?_, ?_⟩
  · simp only [html_assemble_chunks, List.map_map]
    exact List.map_congr_left (fun w _ => rfl)
  · intro c hc
    simp only [html_assemble_chunks, List.mem_map] at hc
    obtain ⟨w, _, rfl⟩ := hc
    exact Nat.le_add_left 1 _
  · by_cases h : clean_text = ""
    · simp [pdf_page_chunks, h]
    · simp only [pdf_page_chunks, h, if_false, if_neg h]
      rw [pdfWindowChunks_indexes]
      exact (List.range_eq_range' _).symm
  · intro n hn
    simp only [image_frame_chunk_indexes] at hn
    by_cases h : ocrText = ""
    · rw [if_pos h] at hn
      simp at hn
      omega
    · rw [if_neg h] at hn
      simp only [List.mem_map] at hn
      obtain ⟨w, _, rfl⟩ := hn
      exact Nat.le_add_left 1 _
  · exact image_frame_chunk_indexes_head codec maxTokens minTokens overlap
      ocrText

/-- C6 witness: the amended statement evaluated on a concrete HTML
document, a concrete PDF page and a concrete OCR frame text. -/
theorem C6_chunk_index_amended_witness :
    ((html_assemble_chunks id wsCodec 512 100 2 sampleHtmlCfg "k1" "sha1"
        sampleManifest none none none (some "Title") "t0"
        "Hello world. This is a test.").map Chunk.chunk_index) =
      ((split_into_windows id wsCodec 512 100 2
          (canonicalize_text id "Hello world. This is a test.")).map
        (fun w => w.window_index + 1)) ∧
    ((html_assemble_chunks id wsCodec 512 100 2 sampleHtmlCfg "k1" "sha1"
        sampleManifest none none none (some "Title") "t0"
        "Hello world. This is a test.").all
      (fun c => 1 ≤ c.chunk_index)) = true ∧
    ((pdf_page_chunks wsCodec 512 100 2 "doc1" "u" [] false sampleManifest
        ⟨"sha1", "k", none⟩ "pdf-v1" "t0" 6 1 1 0
        "Hello world. This is a test.").1.map PdfChunk.chunk_index) =
      List.range
        (split_into_windows_pdf wsCodec 512 100 2
          "Hello world. This is a test.").length ∧
    ((image_frame_chunk_indexes wsCodec 512 100 2
        "Hello world. This is a test.").all (fun n => 1 ≤ n)) = true ∧
    (image_frame_chunk_indexes wsCodec 512 100 2
        "Hello world. This is a test.").head? = some 1 := by
  have h := C6_chunk_index_amended id wsCodec 512 100 2 sampleHtmlCfg
    "k1" "sha1" sampleManifest none none none (some "Title") "t0"
    "Hello world. This is a test." "doc1" "u" [] false ⟨"sha1", "k", none⟩
    "pdf-v1" "t0" 6 1 1 0 "Hello world. This is a test."
    "Hello world. This is a test."
  refine ⟨h.1, ?_, ?_, ?_, h.2.2.2.2⟩
  · rw [List.all_eq_true]
    intro c hc
    exact decide_eq_true (h.2.1 c hc)
  · simpa using h.2.2.1
  · rw [List.all_eq_true]
    intro n hn
    exact decide_eq_true (h.2.2.2.1 n hn)

/-! ## C8 — invalid-request refusal -/

/-- Retriever/generator outcomes that are never consulted on the
validation-refusal path. -/
def depsUnused : Deps :=
  { retrieverOut := Except.error "unused",
    generatorOut := Except.error "unused" }

/-- C8 counterexample: a request with an invalid language is refused, but
with `guidance_key = "invalid_request"`, not the claimed
`"refusal_invalid_request"`. -/
theorem C8_counterexample_guidance_key :
    (handle sampleQoCfg "g1" depsUnused
        { sampleEvent with language := some "fr" }).guidance_key =
      some "invalid_request" ∧
    some "invalid_request" ≠ some "refusal_invalid_request" := by
  exact ⟨by decide, by decide⟩

/-- C8 (amended): every request that violates the canonical request shape
(`_validate_request_shape` returns an error dict — invalid language,
invalid channel, empty query, or a voice request without
`asr_confidence`) is answered with resolution `refusal` and guidance key
exactly `"invalid_request"`. -/
theorem C8_invalid_request_refusal_amended (cfg : QoConfig)
    (genId : String) (deps : Deps) (ev : Event) (e : ValError)
    (h : validate_request_shape genId ev = Except.error e) :
    handle cfg genId deps ev = refusalResponse e.request_id
      "invalid_request" := by
  unfold handle
  rw [h]

/-- C8 witness: the amended theorem at a concrete voice request missing
`asr_confidence`. -/
theorem C8_invalid_request_refusal_amended_witness :
    validate_request_shape "g1" { sampleEvent with channel := some "voice" }
      = Except.error { error := "missing_asr_confidence",
                       request_id := "r1" } ∧
    handle sampleQoCfg "g1" depsUnused
        { sampleEvent with channel := some "voice" } =
      refusalResponse "r1" "invalid_request" := by
  have hv : validate_request_shape "g1"
      { sampleEvent with channel := some "voice" } =
      Except.error { error := "missing_asr_confidence",
                     request_id := "r1" } := rfl
  exact ⟨hv, C8_invalid_request_refusal_amended sampleQoCfg "g1" depsUnused
    { sampleEvent with channel := some "voice" } _ hv⟩

/-! ## C5 — oversized-sentence truncation -/

/-- C5: the failing input.  One sentence of five whitespace tokens with
`max_tokens = 3` (`min_tokens = 1`, `overlap_sentences = 2`): the windower
emits a single window truncated to exactly 3 tokens, the sentence remainder
(`"d e."`) is written back into the sentence queue but the cursor advance
`max(start_i + 1, end_sentence_idx - overlap_sentences)` skips it, so the
emitted windows end at token 3 while the document has 5 tokens — the
remainder is lost and cumulative token_end ≠ document_total_tokens. -/
theorem C5_truncation_drops_remainder :
    ((split_into_windows id wsCodec 3 1 2 "a b c d e.").map
      (fun w => (w.text, w.token_count, w.token_start, w.token_end))) =
      [("a b c", 3, 0, 3)] ∧
    (wsCodec.encode (canonicalize_text id "a b c d e.")).length = 5 ∧
    ¬ ((split_into_windows id wsCodec 3 1 2 "a b c d e.").map
        (fun w => w.token_end)) = [5] := by
  refine ⟨by decide, by decide, by decide⟩

/-! ## C3 — materializer idempotency hit -/

/-- C3: when the stored raw manifest's `chunked.chunked_sha256` equals the
sha of the newly serialized chunk JSONL and `FORCE_PROCESS` is unset, the
materializer returns without performing any object-store write (neither
the chunk file nor the manifest). -/
theorem C3_materializer_idempotent_skip (sha : String → String)
    (cfg : HtmlCfg) (document_id : String) (chunks : List Chunk)
    (raw_key raw_sha : String) (original_url : Option String)
    (existing : Option StoredManifest) (t : String) (cm : ChunkedMeta)
    (h1 : (existing.getD emptyStoredManifest).chunked = some cm)
    (h2 : cm.chunked_sha256 = some (sha (chunk_jsonl chunks)))
    (h3 : cfg.forceProcess = false) :
    (write_chunks_and_extend_raw_manifest sha cfg document_id chunks
      raw_key raw_sha original_url existing t).2 = [] := by
  simp only [write_chunks_and_extend_raw_manifest]
  rw [h1]
  simp [h2, h3]

def c3ChunkedMeta : ChunkedMeta :=
  { chunk_file := "s3://b/data/chunked/chunked_v1/d.chunks.jsonl",
    chunk_format := "jsonl", schema_version := "chunked_v1",
    parser_version := "html-trafilatura-v1", ingest_time := "t0",
    chunk_count := 0, chunked_sha256 := some "\n",
    chunked_size_bytes := 1 }

def c3StoredManifest : StoredManifest :=
  { emptyStoredManifest with chunked := some c3ChunkedMeta }

/-- C3 witness: with the identity hash, an empty chunk list serializes to
`"\n"`; a stored manifest already carrying that sha makes the second
materializer run perform zero writes. -/
theorem C3_materializer_idempotent_skip_witness :
    (Option.getD (some c3StoredManifest) emptyStoredManifest).chunked =
      some c3ChunkedMeta ∧
    c3ChunkedMeta.chunked_sha256 = some (id (chunk_jsonl [])) ∧
    sampleHtmlCfg.forceProcess = false ∧
    (write_chunks_and_extend_raw_manifest id sampleHtmlCfg "d" [] "k" "r"
      none (some c3StoredManifest) "t1").2 = [] := by
  refine ⟨rfl, rfl, rfl, ?_⟩
  exact C3_materializer_idempotent_skip id sampleHtmlCfg "d" [] "k" "r"
    none (some c3StoredManifest) "t1" c3ChunkedMeta rfl rfl rfl

/-! ## C1 — chunk / chunk-file determinism across runs -/

/-- A chunk record with its `ingest_time` field cleared: the projection
under which two runs are compared. -/
def chunkEraseIngest (c : Chunk) : Chunk := { c with ingest_time := "" }

set_option maxRecDepth 4000 in
/-- C1 counterexample: the same document, manifest and parameters chunked
at two different wall-clock instants produce different chunk records and a
different chunk-file JSONL byte sequence — `ingest_time = now_ts()` is
embedded in every record, so the bytes (and hence `chunked_sha256`) are not
a function of (document, parameters) alone. -/
theorem C1_counterexample_ingest_time :
    ((html_assemble_chunks id wsCodec 512 100 2 sampleHtmlCfg "k1" "sha1"
        sampleManifest none none none (some "Title")
        "2024-01-01T00:00:00.000Z" "Hi there.").map Chunk.ingest_time ≠
      (html_assemble_chunks id wsCodec 512 100 2 sampleHtmlCfg "k1" "sha1"
        sampleManifest none none none (some "Title")
        "2024-01-01T00:00:01.000Z" "Hi there.").map Chunk.ingest_time) ∧
    html_assemble_chunks id wsCodec 512 100 2 sampleHtmlCfg "k1" "sha1"
        sampleManifest none none none (some "Title")
        "2024-01-01T00:00:00.000Z" "Hi there." ≠
      html_assemble_chunks id wsCodec 512 100 2 sampleHtmlCfg "k1" "sha1"
        sampleManifest none none none (some "Title")
        "2024-01-01T00:00:01.000Z" "Hi there." ∧
    chunk_jsonl (html_assemble_chunks id wsCodec 512 100 2 sampleHtmlCfg
        "k1" "sha1" sampleManifest none none none (some "Title")
        "2024-01-01T00:00:00.000Z" "Hi there.") ≠
      chunk_jsonl (html_assemble_chunks id wsCodec 512 100 2 sampleHtmlCfg
        "k1" "sha1" sampleManifest none none none (some "Title")
        "2024-01-01T00:00:01.000Z" "Hi there.") := by
  have hmap : ((html_assemble_chunks id wsCodec 512 100 2 sampleHtmlCfg
      "k1" "sha1" sampleManifest none none none (some "Title")
      "2024-01-01T00:00:00.000Z" "Hi there.").map Chunk.ingest_time ≠
      (html_assemble_chunks id wsCodec 512 100 2 sampleHtmlCfg "k1" "sha1"
        sampleManifest none none none (some "Title")
        "2024-01-01T00:00:01.000Z" "Hi there.").map Chunk.ingest_time) := by
    decide
  refine ⟨hmap, fun h => hmap (congrArg (List.map Chunk.ingest_time) h), ?_⟩
  have hw : split_into_windows id wsCodec 512 100 2
      (canonicalize_text id "Hi there.") =
      [{ window_index := 0, text := "Hi there.", token_count := 2,
         token_start := 0, token_end := 2, start_sentence_idx := 0,
         end_sentence_idx := 1 }] := by decide
  have htot : (wsCodec.encode (canonicalize_text id "Hi there.")).length = 2 :=
    by decide
  have hsem : derive_semantic_region 0 2 2 = "intro" := by
    unfold derive_semantic_region
    norm_num
  simp only [html_assemble_chunks, hw, htot, List.map, hsem]
  decide


/-- C1 (amended): the chunker is deterministic in (document, parameters,
ingest timestamp): two runs over the same extracted text, manifest and
parameters produce chunk records that agree on every field except
`ingest_time`; because `ingest_time` is the run's wall clock, the JSONL
bytes and `chunked_sha256` are functions of (document, parameters,
timestamp), not of (document, parameters) alone. -/
theorem C1_determinism_amended {τ : Type} (nfkc : String → String)
    (codec : TokenCodec τ) (maxTokens minTokens overlap : Nat)
    (cfg : HtmlCfg) (key rawSha : String) (man : Manifest)
    (metaTitle parsedMetaUrl parsedMetaLanguage title : Option String)
    (t t' : String) (extracted_text : String) :
    (html_assemble_chunks nfkc codec maxTokens minTokens overlap cfg key
        rawSha man metaTitle parsedMetaUrl parsedMetaLanguage title t
        extracted_text).map chunkEraseIngest =
      (html_assemble_chunks nfkc codec maxTokens minTokens overlap cfg key
        rawSha man metaTitle parsedMetaUrl parsedMetaLanguage title t'
        extracted_text).map chunkEraseIngest := by
  simp only [html_assemble_chunks, List.map_map]
  exact List.map_congr_left (fun w _ => rfl)

/-! ## C4 — upstream I/O failure surfacing -/

theorem retrieve_embed_error_passages (nfkc : String → String)
    (rid q msg : String) (s : Except String (List Candidate)) (tk rk : Nat) :
    (retrieve nfkc rid q (Except.error msg) s tk rk).passages = [] := by
  unfold retrieve
  split <;> rfl

theorem retrieve_search_error_passages (nfkc : String → String)
    (rid q : String) (emb : Except String Unit) (msg : String)
    (tk rk : Nat) :
    (retrieve nfkc rid q emb (Except.error msg) tk rk).passages = [] := by
  unfold retrieve
  split
  · rfl
  · cases emb <;> rfl

/-- C4 counterexample: a valid, unblocked web request whose embedding call
fails.  `retrieve` catches the failure and returns an error payload with
empty passages (it does not raise), so the orchestrator takes the
empty-passages branch and resolves `not_enough_info` — not the claimed
`invalid_output`. -/
theorem C4_counterexample_embed_failure :
    (handle sampleQoCfg "g1"
        { retrieverOut := Except.ok (retrieve id "r1"
            "How to apply for a voter id?" (Except.error "embed down")
            (Except.ok []) 5 50),
          generatorOut := Except.error "unreached" } sampleEvent).resolution
      = "not_enough_info" ∧
    "not_enough_info" ≠ "invalid_output" := by
  exact ⟨by decide, by decide⟩

/-- C4 (amended): for a request that passes validation, the ASR gate and
the intent blocklist, an embedding or vector-store failure inside the
retriever is caught there and returned as an empty-passages error payload,
which the orchestrator surfaces as `not_enough_info`; only an exception
escaping the retriever call itself surfaces as `invalid_output` (with
error `retrieval_failed`). -/
theorem C4_upstream_failure_amended (cfg : QoConfig) (genId : String)
    (ev : Event) (v : ValidatedRequest) (nfkc : String → String)
    (rid q msg : String) (searchOut : Except String (List Candidate))
    (emb : Except String Unit) (tk rk : Nat)
    (gen : Except String GenValidation)
    (hv : validate_request_shape genId ev = Except.ok v)
    (hasr : (if v.channel = "voice" then enforce_asr cfg v.asr_confidence
      else none) = none)
    (hint : intent_blocked v.query = none) :
    (handle cfg genId
        { retrieverOut := Except.ok
            (retrieve nfkc rid q (Except.error msg) searchOut tk rk),
          generatorOut := gen } ev).resolution = "not_enough_info" ∧
    (handle cfg genId
        { retrieverOut := Except.ok
            (retrieve nfkc rid q emb (Except.error msg) tk rk),
          generatorOut := gen } ev).resolution = "not_enough_info" ∧
    (handle cfg genId
        { retrieverOut := Except.error msg, generatorOut := gen } ev) =
      plainResponse v.request_id "invalid_output"
        (some "retrieval_failed") none := by
  refine ⟨?_, ?_, ?_⟩
  · unfold handle
    rw [hv]
    dsimp only
    rw [hasr, hint]
    dsimp only
    rw [List.isEmpty_iff.mpr
      (retrieve_embed_error_passages nfkc rid q msg searchOut tk rk)]
    rfl
  · unfold handle
    rw [hv]
    dsimp only
    rw [hasr, hint]
    dsimp only
    rw [List.isEmpty_iff.mpr
      (retrieve_search_error_passages nfkc rid q emb msg tk rk)]
    rfl
  · unfold handle
    rw [hv]
    dsimp only
    rw [hasr, hint]

/-- C4 witness: the amended theorem at the concrete sample request. -/
theorem C4_upstream_failure_amended_witness :
    validate_request_shape "g1" sampleEvent = Except.ok
      { request_id := "r1", session_id := none, language := "en",
        channel := "web", query := "How to apply for a voter id?",
        top_k := none, raw_k := none, asr_confidence := none,
        region := none } ∧
    (handle sampleQoCfg "g1"
        { retrieverOut := Except.ok (retrieve id "r1"
            "How to apply for a voter id?" (Except.ok ())
            (Except.error "pg down") 5 50),
          generatorOut := Except.error "unreached" } sampleEvent).resolution
      = "not_enough_info" ∧
    (handle sampleQoCfg "g1"
        { retrieverOut := Except.error "raised",
          generatorOut := Except.error "unreached" } sampleEvent) =
      plainResponse "r1" "invalid_output" (some "retrieval_failed") none := by
  have hv : validate_request_shape "g1" sampleEvent = Except.ok
      { request_id := "r1", session_id := none, language := "en",
        channel := "web", query := "How to apply for a voter id?",
        top_k := none, raw_k := none, asr_confidence := none,
        region := none } := rfl
  have h := C4_upstream_failure_amended sampleQoCfg "g1" sampleEvent _ id
    "r1" "How to apply for a voter id?" "pg down" (Except.ok [])
    (Except.ok ()) 5 50 (Except.error "unreached") hv (by decide) (by decide)
  exact ⟨hv, h.2.1, by
    have h3 := (C4_upstream_failure_amended sampleQoCfg "g1" sampleEvent _
      id "r1" "q" "raised" (Except.ok []) (Except.ok ()) 5 50
      (Except.error "unreached") hv (by decide) (by decide)).2.2
    exact h3⟩

/-! ## C10 — prompt depends only on (language, question, passage numbers
and texts) -/

/-- The fields of a passage that `build_user_prompt` reads. -/
def promptProj (p : Passage) : Int × String := (p.number, p.text)

/-- The rendered passage line as a function of those fields. -/
def promptLineOfPair (q : Int × String) : String :=
  toString q.1 ++ ". " ++
    String.intercalate " " ((pySplitlines q.2).map pyStrip)

/-- C10: the generator prompt is a function of the request language, the
question, and each passage's `(number, text)` (in list order); two passage
lists agreeing on those fields — whatever their `source_url`, `meta`,
`score`, `distance` or `chunk_id` — produce byte-identical prompts, so
passage metadata and URLs cannot leak into the prompt. -/
theorem C10_prompt_metadata_independent (language question : String)
    (ps1 ps2 : List Passage)
    (h : ps1.map promptProj = ps2.map promptProj) :
    build_user_prompt language question ps1 =
      build_user_prompt language question ps2 := by
  have e1 := List.map_insertionSort
    (r := fun a b : Passage => a.number ≤ b.number)
    (s := fun a b : Int × String => a.1 ≤ b.1) promptProj ps1
    (fun a _ b _ => Iff.rfl)
  have e2 := List.map_insertionSort
    (r := fun a b : Passage => a.number ≤ b.number)
    (s := fun a b : Int × String => a.1 ≤ b.1) promptProj ps2
    (fun a _ b _ => Iff.rfl)
  have hl :
      (ps1.insertionSort (fun a b => a.number ≤ b.number)).map
        (fun p => toString p.number ++ ". " ++
          String.intercalate " " ((pySplitlines p.text).map pyStrip)) =
      (ps2.insertionSort (fun a b => a.number ≤ b.number)).map
        (fun p => toString p.number ++ ". " ++
          String.intercalate " " ((pySplitlines p.text).map pyStrip)) := by
    have f1 : (ps1.insertionSort (fun a b => a.number ≤ b.number)).map
        (fun p => toString p.number ++ ". " ++
          String.intercalate " " ((pySplitlines p.text).map pyStrip)) =
        ((ps1.insertionSort (fun a b => a.number ≤ b.number)).map
          promptProj).map promptLineOfPair := by
      rw [List.map_map]; rfl
    have f2 : (ps2.insertionSort (fun a b => a.number ≤ b.number)).map
        (fun p => toString p.number ++ ". " ++
          String.intercalate " " ((pySplitlines p.text).map pyStrip)) =
        ((ps2.insertionSort (fun a b => a.number ≤ b.number)).map
          promptProj).map promptLineOfPair := by
      rw [List.map_map]; rfl
    rw [f1, f2, e1, e2, h]
  simp only [build_user_prompt]
  rw [hl]

def c10PassageA : Passage :=
  { number := 1, chunk_id := "doc1_c0001", document_id := some "doc1",
    chunk_index := some 1, text := "Apply at the portal.",
    meta := ⟨some "gov", none⟩,
    source_url := some "https://gov.in/schemes", page_number := none,
    score := 1, distance := some 0 }

def c10PassageB : Passage :=
  { number := 1, chunk_id := "other_c0009", document_id := some "other",
    chunk_index := some 9, text := "Apply at the portal.",
    meta := ⟨some "news", some "x"⟩,
    source_url := some "https://leaky.example/secret", page_number := some 3,
    score := 0, distance := some 5 }

/-- C10 witness: two passage lists agreeing on `(number, text)` but
differing in chunk_id, document, metadata, URL, score and distance yield
the same prompt. -/
theorem C10_prompt_metadata_independent_witness :
    [c10PassageA].map promptProj = [c10PassageB].map promptProj ∧
    build_user_prompt "en" "How do I apply?" [c10PassageA] =
      build_user_prompt "en" "How do I apply?" [c10PassageB] := by
  have h : [c10PassageA].map promptProj = [c10PassageB].map promptProj := rfl
  exact ⟨h,
    C10_prompt_metadata_independent "en" "How do I apply?" _ _ h⟩

/-! ## C2 — generator output validator -/

/-- The non-empty stripped lines of the raw generator output
(`[ln.strip() for ln in raw.strip().splitlines() if ln.strip()]`). -/
def usable_lines (raw : String) : List String :=
  ((pySplitlines (pyStrip raw)).map pyStrip).filter (fun s => s ≠ "")

/-- The claim's per-line requirement, stated on the line as-is: it ends
with a citation `[n]`, `1 ≤ n ≤ max_pass`, and contains none of the
disallowed substrings. -/
def line_ok (passages : List Passage) (ln : String) : Prop :=
  (∃ n : Nat, lineCitation ln = some n ∧ 1 ≤ (n : Int) ∧
      (n : Int) ≤ maxPassNumber passages) ∧
  ∀ pat ∈ DISALLOWED_SUBSTRINGS, strContainsSub ln pat = false

/-- The per-line check the code performs (citation bounds, then the
disallowed-substring scan on the lowercased line). -/
def codeLineOkB (maxPass : Int) (ln : String) : Bool :=
  match lineCitation ln with
  | none => false
  | some n => !((n : Int) < 1 || (n : Int) > maxPass) && !disallowedHit ln

theorem validateLines_some_all_ok (maxPass : Int) :
    ∀ lines ls, validateLines maxPass lines = some ls →
      ∀ ln ∈ lines, codeLineOkB maxPass ln = true := by
  intro lines
  induction lines with
  | nil => intro ls _ ln hln; exact absurd hln (List.not_mem_nil ln)
  | cons hd tl ih =>
    intro ls hsome ln hln
    unfold validateLines at hsome
    cases hc : lineCitation hd with
    | none => rw [hc] at hsome; exact absurd hsome (by simp)
    | some n =>
      rw [hc] at hsome
      dsimp only at hsome
      by_cases hb : ((n : Int) < 1 || (n : Int) > maxPass) = true
      · rw [if_pos hb] at hsome; exact absurd hsome (by simp)
      · rw [if_neg hb] at hsome
        by_cases hdis : disallowedHit hd = true
        · rw [if_pos hdis] at hsome; exact absurd hsome (by simp)
        · rw [if_neg hdis] at hsome
          cases hrest : validateLines maxPass tl with
          | none => rw [hrest] at hsome; exact absurd hsome (by simp)
          | some ls' =>
            rcases List.mem_cons.mp hln with rfl | hmem
            · unfold codeLineOkB
              rw [hc]
              simp only [Bool.and_eq_true, Bool.not_eq_true']
              exact ⟨by simpa using hb, by simpa using hdis⟩
            · exact ih ls' hrest ln hmem

theorem validateLines_none_of_bad (maxPass : Int) :
    ∀ lines ln, ln ∈ lines → codeLineOkB maxPass ln = false →
      validateLines maxPass lines = none := by
  intro lines
  induction lines with
  | nil => intro ln hln; exact absurd hln (List.not_mem_nil ln)
  | cons hd tl ih =>
    intro ln hln hbad
    unfold validateLines
    cases hc : lineCitation hd with
    | none => rfl
    | some n =>
      dsimp only
      by_cases hb : ((n : Int) < 1 || (n : Int) > maxPass) = true
      · rw [if_pos hb]
      · rw [if_neg hb]
        by_cases hdis : disallowedHit hd = true
        · rw [if_pos hdis]
        · rw [if_neg hdis]
          rcases List.mem_cons.mp hln with rfl | hmem
          · exfalso
            unfold codeLineOkB at hbad
            rw [hc] at hbad
            simp only [Bool.and_eq_true, Bool.not_eq_true',
              Bool.and_eq_false_iff, Bool.not_eq_false'] at hbad
            rcases hbad with h | h
            · exact hb h
            · exact hdis h
          · rw [ih ln hmem hbad]
            rfl

theorem containsSub_map_toLower (pat : List Char) :
    ∀ s : List Char, pat.map Char.toLower = pat →
      containsSubB pat s = true →
      containsSubB pat (s.map Char.toLower) = true := by
  intro s
  induction s with
  | nil => intro _ h; simpa [containsSubB] using h
  | cons c cs ih =>
    intro hp h
    simp only [containsSubB, Bool.or_eq_true, List.map_cons] at h ⊢
    rcases h with h | h
    · left
      have hpre := (List.isPrefixOf_iff_prefix.mp h).map Char.toLower
      rw [hp] at hpre
      exact List.isPrefixOf_iff_prefix.mpr (by simpa using hpre)
    · right; exact ih hp h

theorem disallowed_lower_of_contains (pat : String)
    (hp : pat ∈ DISALLOWED_SUBSTRINGS) (ln : String)
    (h : strContainsSub ln pat = true) :
    strContainsSub (pyLower ln) pat = true := by
  have hmap : pat.toList.map Char.toLower = pat.toList := by
    fin_cases hp <;> decide
  unfold strContainsSub pyLower
  unfold strContainsSub at h
  exact containsSub_map_toLower pat.toList ln.toList hmap h

theorem codeLineOk_imp_line_ok (passages : List Passage) (ln : String)
    (h : codeLineOkB (maxPassNumber passages) ln = true) :
    line_ok passages ln := by
  unfold codeLineOkB at h
  cases hc : lineCitation ln with
  | none => rw [hc] at h; exact absurd h (by simp)
  | some n =>
    rw [hc] at h
    simp only [Bool.and_eq_true, Bool.not_eq_true', Bool.or_eq_false_iff,
      decide_eq_false_iff_not, not_lt] at h
    obtain ⟨⟨h1, h2⟩, hdis⟩ := h
    refine ⟨⟨n, hc, h1, h2⟩, ?_⟩
    intro pat hpat
    by_contra hcon
    have hcon' : strContainsSub ln pat = true := by
      cases hval : strContainsSub ln pat
      · exact absurd hval hcon
      · rfl
    have hlow := disallowed_lower_of_contains pat hpat ln hcon'
    have : disallowedHit ln = true := by
      unfold disallowedHit
      rw [List.any_eq_true]
      exact ⟨pat, hpat, hlow⟩
    rw [this] at hdis
    exact absurd hdis (by simp)

theorem not_line_ok_imp_codeLineOk_false (passages : List Passage)
    (ln : String) (h : ¬ line_ok passages ln) :
    codeLineOkB (maxPassNumber passages) ln = false := by
  unfold codeLineOkB
  cases hc : lineCitation ln with
  | none => rfl
  | some n =>
    dsimp only
    by_cases hb : ((n : Int) < 1 || (n : Int) > maxPassNumber passages) = true
    · rw [hb]; rfl
    · have hbounds : 1 ≤ (n : Int) ∧ (n : Int) ≤ maxPassNumber passages := by
        simp only [Bool.or_eq_true, decide_eq_true_eq, not_or, not_lt] at hb
        exact ⟨hb.1, hb.2⟩
      have hexists : ∃ pat ∈ DISALLOWED_SUBSTRINGS,
          strContainsSub ln pat = true := by
        by_contra hall
        push_neg at hall
        apply h
        refine ⟨⟨n, hc, hbounds.1, hbounds.2⟩, ?_⟩
        intro pat hpat
        have := hall pat hpat
        cases hval : strContainsSub ln pat
        · rfl
        · exact absurd hval this
      obtain ⟨pat, hpat, hcontains⟩ := hexists
      have hlow := disallowed_lower_of_contains pat hpat ln hcontains
      have hd : disallowedHit ln = true := by
        unfold disallowedHit
        rw [List.any_eq_true]
        exact ⟨pat, hpat, hlow⟩
      rw [hd]
      simp

/-- C2: the output validator accepts only if every usable line ends (after
trimming) with a citation `[n]`, `1 ≤ n ≤ max_pass`, and contains none of
`http://`, `https://`, `www.`, `file://`; any violating line yields
`INVALID_OUTPUT` (unless the whole output is the refusal token), zero
usable lines yield `INVALID_OUTPUT`, and the exact string
`NOT_ENOUGH_INFORMATION` yields `NOT_ENOUGH_INFORMATION`. -/
theorem C2_output_validator_contract (raw : String)
    (passages : List Passage) :
    ((validate_and_parse_output (some raw) passages).decision = "ACCEPT" →
      usable_lines raw ≠ [] ∧
        ∀ ln ∈ usable_lines raw, line_ok passages ln) ∧
    (pyStrip raw ≠ "NOT_ENOUGH_INFORMATION" →
      (∃ ln ∈ usable_lines raw, ¬ line_ok passages ln) →
      (validate_and_parse_output (some raw) passages).decision =
        "INVALID_OUTPUT") ∧
    (usable_lines raw = [] →
      (validate_and_parse_output (some raw) passages).decision =
        "INVALID_OUTPUT") ∧
    (pyStrip raw = "NOT_ENOUGH_INFORMATION" →
      (validate_and_parse_output (some raw) passages).decision =
        "NOT_ENOUGH_INFORMATION") := by
  by_cases h0 : pyStrip raw = ""
  · have hv : validate_and_parse_output (some raw) passages =
        { decision := "INVALID_OUTPUT", answer_lines := [],
          confidence := none } := by
      unfold validate_and_parse_output
      dsimp only
      rw [if_pos h0]
    refine ⟨?_, ?_, ?_, ?_⟩
    · intro hacc; rw [hv] at hacc; exact absurd hacc (by decide)
    · intro _ _; rw [hv]
    · intro _; rw [hv]
    · intro hne; rw [h0] at hne; exact absurd hne (by decide)
  · by_cases h1 : pyStrip raw = "NOT_ENOUGH_INFORMATION"
    · have hv : validate_and_parse_output (some raw) passages =
          { decision := "NOT_ENOUGH_INFORMATION", answer_lines := [],
            confidence := none } := by
        unfold validate_and_parse_output
        dsimp only
        rw [if_neg h0, if_pos h1]
      have hul : usable_lines raw = ["NOT_ENOUGH_INFORMATION"] := by
        unfold usable_lines
        rw [h1]
        decide
      refine ⟨?_, ?_, ?_, ?_⟩
      · intro hacc; rw [hv] at hacc; exact absurd hacc (by decide)
      · intro hne; exact absurd h1 hne
      · intro hemp; rw [hul] at hemp; exact absurd hemp (by decide)
      · intro _; rw [hv]
    · by_cases h2 : usable_lines raw = []
      · have hni : (((pySplitlines (pyStrip raw)).map pyStrip).filter
            (fun s => s ≠ "")).isEmpty = true := by
          unfold usable_lines at h2
          rw [h2]
          rfl
        have hv : validate_and_parse_output (some raw) passages =
            { decision := "INVALID_OUTPUT", answer_lines := [],
              confidence := none } := by
          unfold validate_and_parse_output
          dsimp only
          rw [if_neg h0, if_neg h1]
          rw [if_pos hni]
        refine ⟨?_, ?_, ?_, ?_⟩
        · intro hacc; rw [hv] at hacc; exact absurd hacc (by decide)
        · intro _ _; rw [hv]
        · intro _; rw [hv]
        · intro hne; exact absurd hne h1
      · have hni : (((pySplitlines (pyStrip raw)).map pyStrip).filter
            (fun s => s ≠ "")).isEmpty = false := by
          unfold usable_lines at h2
          cases hul : ((pySplitlines (pyStrip raw)).map pyStrip).filter
              (fun s => s ≠ "") with
          | nil => exact absurd hul h2
          | cons a l => rfl
        by_cases h3 : maxPassNumber passages < 1
        · have hv : validate_and_parse_output (some raw) passages =
              { decision := "INVALID_OUTPUT", answer_lines := [],
                confidence := none } := by
            unfold validate_and_parse_output
            dsimp only
            rw [if_neg h0, if_neg h1]
            rw [if_neg (by rw [hni]; simp)]
            rw [if_pos h3]
          refine ⟨?_, ?_, ?_, ?_⟩
          · intro hacc; rw [hv] at hacc; exact absurd hacc (by decide)
          · intro _ _; rw [hv]
          · intro hemp; exact absurd hemp h2
          · intro hne; exact absurd hne h1
        · cases hvl : validateLines (maxPassNumber passages)
              (usable_lines raw) with
          | none =>
            have hv : validate_and_parse_output (some raw) passages =
                { decision := "INVALID_OUTPUT", answer_lines := [],
                  confidence := none } := by
              unfold validate_and_parse_output
              dsimp only
              rw [if_neg h0, if_neg h1]
              rw [if_neg (by rw [hni]; simp)]
              rw [if_neg h3]
              unfold usable_lines at hvl
              rw [hvl]
            refine ⟨?_, ?_, ?_, ?_⟩
            · intro hacc; rw [hv] at hacc; exact absurd hacc (by decide)
            · intro _ _; rw [hv]
            · intro hemp; exact absurd hemp h2
            · intro hne; exact absurd hne h1
          | some ls =>
            have hv : validate_and_parse_output (some raw) passages =
                { decision := "ACCEPT", answer_lines := ls,
                  confidence := some "high" } := by
              unfold validate_and_parse_output
              dsimp only
              rw [if_neg h0, if_neg h1]
              rw [if_neg (by rw [hni]; simp)]
              rw [if_neg h3]
              unfold usable_lines at hvl
              rw [hvl]
            refine ⟨?_, ?_, ?_, ?_⟩
            · intro _
              refine ⟨h2, fun ln hln => ?_⟩
              exact codeLineOk_imp_line_ok passages ln
                (validateLines_some_all_ok (maxPassNumber passages)
                  (usable_lines raw) ls hvl ln hln)
            · intro _ hex
              obtain ⟨ln, hln, hbad⟩ := hex
              have := validateLines_none_of_bad (maxPassNumber passages)
                (usable_lines raw) ln hln
                (not_line_ok_imp_codeLineOk_false passages ln hbad)
              rw [this] at hvl
              exact absurd hvl (by simp)
            · intro hemp; exact absurd hemp h2
            · intro hne; exact absurd hne h1

def c2Passage : Passage :=
  { number := 1, chunk_id := "c1", document_id := none, chunk_index := none,
    text := "Apply at the portal.", meta := ⟨none, none⟩, source_url := none,
    page_number := none, score := 1, distance := some 0 }

/-- C2 witness: a two-line output whose second line lacks a citation is
rejected as `INVALID_OUTPUT`. -/
theorem C2_output_validator_contract_witness :
    pyStrip "Apply online. [1]\nNo citation here." ≠
      "NOT_ENOUGH_INFORMATION" ∧
    (∃ ln ∈ usable_lines "Apply online. [1]\nNo citation here.",
      ¬ line_ok [c2Passage] ln) ∧
    (validate_and_parse_output
        (some "Apply online. [1]\nNo citation here.")
        [c2Passage]).decision = "INVALID_OUTPUT" := by
  have hne : pyStrip "Apply online. [1]\nNo citation here." ≠
      "NOT_ENOUGH_INFORMATION" := by decide
  have hex : ∃ ln ∈ usable_lines "Apply online. [1]\nNo citation here.",
      ¬ line_ok [c2Passage] ln := by
    refine ⟨"No citation here.", by decide, ?_⟩
    intro hok
    obtain ⟨⟨n, hn, _, _⟩, _⟩ := hok
    rw [show lineCitation "No citation here." = none from by decide] at hn
    exact absurd hn (by simp)
  exact ⟨hne, hex,
    (C2_output_validator_contract "Apply online. [1]\nNo citation here."
      [c2Passage]).2.1 hne hex⟩

/-! ## C7 — retrieval ordering, count cap and deduplication -/

/-- A candidate's dedupe key. -/
def candKey (nfkc : String → String) (c : Candidate) : String :=
  normalize_text_key nfkc c.text

/-- The distance order of the store's reply (`ORDER BY embedding <-> vec`),
missing distances read as 0. -/
def candDistLe (a b : Candidate) : Prop :=
  a.distance.getD 0 ≤ b.distance.getD 0

/-- The fields `re_rank_and_select` stores on each candidate, as an
invariant of scored elements. -/
def scoredInv (r : Scored) : Prop :=
  r.similarity = compute_similarity_from_distance r.cand.distance ∧
    r.trust_weight = trust_weight_for r.cand.meta ∧
    r.final_score = r.similarity * r.trust_weight

theorem scoreCandidate_inv (c : Candidate) : scoredInv (scoreCandidate c) :=
  ⟨rfl, rfl, rfl⟩

theorem normKey_textOf (nfkc : String → String) (c : Candidate) :
    normalize_text_key nfkc (some ((pyOrStr [c.text]).getD "")) =
      normalize_text_key nfkc c.text := by
  cases hc : c.text with
  | none => rfl
  | some t =>
    by_cases ht : t = ""
    · subst ht; rfl
    · simp only [pyOrStr, if_neg ht, Option.getD_some]

theorem dedupeAux_mem_first (nfkc : String → String) (maxKeep : Nat) :
    ∀ (l : List Candidate) (seen : List String) (k : Nat) (c : Candidate),
      c ∈ dedupeAux nfkc maxKeep seen k l →
      candKey nfkc c ∉ seen ∧
      ∃ l₁ l₂, l = l₁ ++ c :: l₂ ∧
        ∀ x ∈ l₁, candKey nfkc x ≠ candKey nfkc c := by
  intro l
  induction l with
  | nil => intro seen k c hc; exact absurd hc (List.not_mem_nil c)
  | cons hd tl ih =>
    intro seen k c hc
    unfold dedupeAux at hc
    by_cases hseen : normalize_text_key nfkc hd.text ∈ seen
    · rw [if_pos hseen] at hc
      obtain ⟨hnot, l₁, l₂, heq, hne⟩ := ih seen k c hc
      refine ⟨hnot, hd :: l₁, l₂, by simp [heq], ?_⟩
      intro x hx
      rcases List.mem_cons.mp hx with rfl | hx'
      · intro habs
        exact hnot (habs ▸ hseen)
      · exact hne x hx'
    · rw [if_neg hseen] at hc
      by_cases hbudget : k + 1 ≥ maxKeep
      · rw [if_pos hbudget] at hc
        rcases List.mem_singleton.mp hc with rfl
        exact ⟨hseen, [], tl, rfl,
          (by intro x hx; exact absurd hx (List.not_mem_nil x))⟩
      · rw [if_neg hbudget] at hc
        rcases List.mem_cons.mp hc with rfl | hc'
        · exact ⟨hseen, [], tl, rfl,
            (by intro x hx; exact absurd hx (List.not_mem_nil x))⟩
        · obtain ⟨hnot, l₁, l₂, heq, hne⟩ :=
            ih (normalize_text_key nfkc hd.text :: seen) (k + 1) c hc'
          have hnot' : candKey nfkc c ∉ seen :=
            fun habs => hnot (List.mem_cons_of_mem _ habs)
          have hnehd : candKey nfkc hd ≠ candKey nfkc c := by
            intro habs
            exact hnot (habs ▸ List.mem_cons_self _ _)
          refine ⟨hnot', hd :: l₁, l₂, by simp [heq], ?_⟩
          intro x hx
          rcases List.mem_cons.mp hx with rfl | hx'
          · exact hnehd
          · exact hne x hx'

theorem dedupeAux_pairwise_keys (nfkc : String → String) (maxKeep : Nat) :
    ∀ (l : List Candidate) (seen : List String) (k : Nat),
      (dedupeAux nfkc maxKeep seen k l).Pairwise
        (fun a b => candKey nfkc a ≠ candKey nfkc b) := by
  intro l
  induction l with
  | nil => intro seen k; exact List.Pairwise.nil
  | cons hd tl ih =>
    intro seen k
    unfold dedupeAux
    by_cases hseen : normalize_text_key nfkc hd.text ∈ seen
    · rw [if_pos hseen]; exact ih seen k
    · rw [if_neg hseen]
      by_cases hbudget : k + 1 ≥ maxKeep
      · rw [if_pos hbudget]
        exact List.pairwise_singleton _ hd
      · rw [if_neg hbudget]
        refine List.Pairwise.cons ?_
          (ih (normalize_text_key nfkc hd.text :: seen) (k + 1))
        intro b hb
        have := (dedupeAux_mem_first nfkc maxKeep tl
          (normalize_text_key nfkc hd.text :: seen) (k + 1) b hb).1
        intro habs
        exact this (habs ▸ List.mem_cons_self _ _)

theorem dedupeAux_nearest (nfkc : String → String) (maxKeep : Nat)
    (l : List Candidate) (hsorted : l.Pairwise candDistLe)
    (c : Candidate) (hc : c ∈ dedupeAux nfkc maxKeep [] 0 l) :
    ∀ c' ∈ l, candKey nfkc c' = candKey nfkc c → candDistLe c c' := by
  obtain ⟨_, l₁, l₂, heq, hne⟩ := dedupeAux_mem_first nfkc maxKeep l [] 0 c hc
  subst heq
  intro c' hc' hkey
  rcases List.mem_append.mp hc' with h1 | h2
  · exact absurd hkey (hne c' h1)
  · rcases List.mem_cons.mp h2 with rfl | h3
    · exact le_refl _
    · have hp : (c :: l₂).Pairwise candDistLe :=
        List.Pairwise.sublist (List.sublist_append_right l₁ (c :: l₂)) hsorted
      exact (List.pairwise_cons.mp hp).1 c' h3

theorem dedupeAux_subset (nfkc : String → String) (maxKeep : Nat)
    (l : List Candidate) (seen : List String) (k : Nat) :
    ∀ c ∈ dedupeAux nfkc maxKeep seen k l, c ∈ l := by
  intro c hc
  obtain ⟨_, l₁, l₂, heq, _⟩ :=
    dedupeAux_mem_first nfkc maxKeep l seen k c hc
  rw [heq]
  exact List.mem_append.mpr (Or.inr (List.mem_cons_self c l₂))

/-- The claim's ordering key on returned passages:
`(-final_score, -similarity, chunk_id)` with
`similarity = 1/(1+distance)` recomputed from the passage's distance. -/
def passageRankLe (p q : Passage) : Prop :=
  p.score > q.score ∨
    (p.score = q.score ∧
      (compute_similarity_from_distance p.distance >
          compute_similarity_from_distance q.distance ∨
        (compute_similarity_from_distance p.distance =
            compute_similarity_from_distance q.distance ∧
          p.chunk_id ≤ q.chunk_id)))

theorem formatPassages_length :
    ∀ (n : Int) (rs : List Scored),
      (formatPassages n rs).length = rs.length := by
  intro n rs
  induction rs generalizing n with
  | nil => rfl
  | cons r rest ih => simp [formatPassages, ih]

theorem mem_formatPassages :
    ∀ (n : Int) (rs : List Scored) (p : Passage),
      p ∈ formatPassages n rs →
      ∃ i r, r ∈ rs ∧ p = passageOfScored i r := by
  intro n rs
  induction rs generalizing n with
  | nil => intro p hp; exact absurd hp (List.not_mem_nil p)
  | cons r rest ih =>
    intro p hp
    rcases List.mem_cons.mp hp with rfl | hp'
    · exact ⟨n, r, List.mem_cons_self r rest, rfl⟩
    · obtain ⟨i, r', hr', rfl⟩ := ih (n + 1) p hp'
      exact ⟨i, r', List.mem_cons_of_mem r hr', rfl⟩

theorem formatPassages_pairwise {R : Scored → Scored → Prop}
    {S : Passage → Passage → Prop} :
    ∀ (rs : List Scored),
      (∀ (i j : Int), ∀ a ∈ rs, ∀ b ∈ rs, R a b →
        S (passageOfScored i a) (passageOfScored j b)) →
      ∀ (n : Int), rs.Pairwise R → (formatPassages n rs).Pairwise S := by
  intro rs
  induction rs with
  | nil => intro _ n _; exact List.Pairwise.nil
  | cons r rest ih =>
    intro h n hp
    rw [List.pairwise_cons] at hp
    refine List.Pairwise.cons ?_ (ih ?_ (n + 1) hp.2)
    · intro q hq
      obtain ⟨i, r', hr', rfl⟩ := mem_formatPassages (n + 1) rest q hq
      exact h n i r (List.mem_cons_self r rest) r'
        (List.mem_cons_of_mem r hr') (hp.1 r' hr')
    · intro i j a ha b hb hab
      exact h i j a (List.mem_cons_of_mem r ha) b
        (List.mem_cons_of_mem r hb) hab

theorem re_rank_mem_inv (cands : List Candidate) (final_k : Nat) :
    ∀ r ∈ re_rank_and_select cands final_k, scoredInv r := by
  intro r hr
  have h1 : r ∈ (cands.map scoreCandidate).insertionSort rankLe :=
    List.mem_of_mem_take hr
  have h2 : r ∈ cands.map scoreCandidate :=
    (List.mem_insertionSort rankLe).mp h1
  obtain ⟨c, _, rfl⟩ := List.mem_map.mp h2
  exact scoreCandidate_inv c

theorem re_rank_mem_of_mem (cands : List Candidate) (final_k : Nat) :
    ∀ r ∈ re_rank_and_select cands final_k,
      ∃ c ∈ cands, r = scoreCandidate c := by
  intro r hr
  have h2 : r ∈ cands.map scoreCandidate :=
    (List.mem_insertionSort rankLe).mp (List.mem_of_mem_take hr)
  obtain ⟨c, hc, rfl⟩ := List.mem_map.mp h2
  exact ⟨c, hc, rfl⟩

theorem re_rank_pairwise (cands : List Candidate) (final_k : Nat) :
    (re_rank_and_select cands final_k).Pairwise rankLe :=
  List.Pairwise.sublist
    (List.take_sublist final_k _)
    (List.sorted_insertionSort rankLe (cands.map scoreCandidate))

theorem re_rank_length (cands : List Candidate) (final_k : Nat) :
    (re_rank_and_select cands final_k).length ≤ final_k :=
  List.length_take_le final_k _

theorem re_rank_pairwise_keys (nfkc : String → String)
    (cands : List Candidate) (final_k : Nat)
    (h0 : cands.Pairwise (fun a b => candKey nfkc a ≠ candKey nfkc b)) :
    (re_rank_and_select cands final_k).Pairwise
      (fun a b => candKey nfkc a.cand ≠ candKey nfkc b.cand) := by
  have h1 : (cands.map scoreCandidate).Pairwise
      (fun a b => candKey nfkc a.cand ≠ candKey nfkc b.cand) :=
    List.pairwise_map.mpr h0
  have hperm : List.Perm (cands.map scoreCandidate)
      ((cands.map scoreCandidate).insertionSort rankLe) :=
    (List.perm_insertionSort rankLe (cands.map scoreCandidate)).symm
  have h2 : ((cands.map scoreCandidate).insertionSort rankLe).Pairwise
      (fun a b => candKey nfkc a.cand ≠ candKey nfkc b.cand) :=
    (hperm.pairwise_iff (fun hab => Ne.symm hab)).mp h1
  exact List.Pairwise.sublist (List.take_sublist final_k _) h2

/-- C7: returned passages are sorted by
`(-final_score, -similarity, chunk_id asc)` with
`final_score = similarity × trust_weight` and `similarity = 1/(1+distance)`;
at most `top_k` passages are returned; no two returned passages share a
normalized text key; and, given the store's distance-ascending candidate
order, the retained occurrence of each key is the nearest by distance. -/
theorem C7_retrieval_ranking_contract (nfkc : String → String)
    (candidates : List Candidate) (raw_k top_k : Nat)
    (hsorted : candidates.Pairwise candDistLe) :
    (retriever_passages nfkc candidates raw_k top_k).Pairwise
      passageRankLe ∧
    (retriever_passages nfkc candidates raw_k top_k).length ≤ top_k ∧
    (retriever_passages nfkc candidates raw_k top_k).Pairwise
      (fun p q => normalize_text_key nfkc (some p.text) ≠
        normalize_text_key nfkc (some q.text)) ∧
    (∀ p ∈ retriever_passages nfkc candidates raw_k top_k,
      p.score = compute_similarity_from_distance p.distance *
        trust_weight_for p.meta) ∧
    (∀ p ∈ retriever_passages nfkc candidates raw_k top_k,
      ∀ c ∈ candidates,
        normalize_text_key nfkc c.text =
          normalize_text_key nfkc (some p.text) →
        p.distance.getD 0 ≤ c.distance.getD 0) := by
  set deduped := dedupe_candidates_keep_nearest nfkc candidates raw_k with hd
  have hmemdeduped : ∀ c ∈ deduped, c ∈ dedupeAux nfkc raw_k [] 0 candidates :=
    fun c hc => hc
  refine ⟨?_, ?_, ?_, ?_, ?_⟩
  · -- sortedness
    refine formatPassages_pairwise (re_rank_and_select deduped top_k) ?_ 1
      (re_rank_pairwise deduped top_k)
    intro i j a ha b hb hab
    obtain ⟨hsa, _, hfa⟩ := re_rank_mem_inv deduped top_k a ha
    obtain ⟨hsb, _, hfb⟩ := re_rank_mem_inv deduped top_k b hb
    unfold rankLe at hab
    unfold passageRankLe passageOfScored
    dsimp only
    rw [← hsa, ← hsb]
    exact hab
  · rw [retriever_passages, formatPassages_length]
    exact re_rank_length deduped top_k
  · -- pairwise distinct keys
    refine formatPassages_pairwise (re_rank_and_select deduped top_k) ?_ 1
      (re_rank_pairwise_keys nfkc deduped top_k
        (dedupeAux_pairwise_keys nfkc raw_k candidates [] 0))
    intro i j a _ b _ hab
    unfold passageOfScored
    dsimp only
    rw [normKey_textOf nfkc a.cand, normKey_textOf nfkc b.cand]
    exact hab
  · -- score formula
    intro p hp
    obtain ⟨i, r, hr, rfl⟩ := mem_formatPassages 1 _ p hp
    obtain ⟨hs, ht, hf⟩ := re_rank_mem_inv deduped top_k r hr
    unfold passageOfScored
    dsimp only
    rw [hf, hs, ht]
  · -- nearest-by-distance retained
    intro p hp c' hc' hkey
    obtain ⟨i, r, hr, rfl⟩ := mem_formatPassages 1 _ p hp
    obtain ⟨c, hc, rfl⟩ := re_rank_mem_of_mem deduped top_k r hr
    have hnear := dedupeAux_nearest nfkc raw_k candidates hsorted c
      (hmemdeduped c hc) c' hc'
    have hkey' : candKey nfkc c' = candKey nfkc c := by
      unfold candKey
      rw [← normKey_textOf nfkc c]
      exact hkey
    exact hnear hkey'

def c7CandA : Candidate :=
  { document_id := some "d1", chunk_id := "d1_c0001", chunk_index := some 1,
    text := some "Apply at the portal.", meta := ⟨some "gov", none⟩,
    source_url := some "https://gov.in", page_number := none,
    distance := some 1 }

def c7CandB : Candidate :=
  { document_id := some "d2", chunk_id := "d2_c0001", chunk_index := some 1,
    text := some "apply   at the PORTAL.", meta := ⟨some "news", none⟩,
    source_url := some "https://news.example", page_number := none,
    distance := some 2 }

def c7CandC : Candidate :=
  { document_id := some "d3", chunk_id := "d3_c0001", chunk_index := some 1,
    text := some "Different content here.", meta := ⟨some "ngo", none⟩,
    source_url := none, page_number := none, distance := some 3 }

/-- C7 witness: the contract applied to three concrete candidates (two of
which share a normalized text) in distance order. -/
theorem C7_retrieval_ranking_contract_witness :
    ([c7CandA, c7CandB, c7CandC].Pairwise candDistLe) ∧
    (retriever_passages id [c7CandA, c7CandB, c7CandC] 50 5).Pairwise
      (fun p q => normalize_text_key id (some p.text) ≠
        normalize_text_key id (some q.text)) ∧
    (retriever_passages id [c7CandA, c7CandB, c7CandC] 50 5).length ≤ 5 := by
  have hsorted : [c7CandA, c7CandB, c7CandC].Pairwise candDistLe := by
    unfold candDistLe c7CandA c7CandB c7CandC
    refine List.Pairwise.cons ?_ (List.Pairwise.cons ?_
      (List.pairwise_singleton _ _))
    · intro b hb
      rcases List.mem_cons.mp hb with rfl | hb'
      · norm_num
      · rcases List.mem_singleton.mp hb' with rfl
        norm_num
    · intro b hb
      rcases List.mem_singleton.mp hb with rfl
      norm_num
  have h := C7_retrieval_ranking_contract id [c7CandA, c7CandB, c7CandC]
    50 5 hsorted
  exact ⟨hsorted, h.2.2.1, h.2.1⟩

end Civic
